import Mathlib

/-!
Verification development for the `Madj2kSlideMenu` component of the
`@madj2k/frontend-kit` repository (file `menus/slide-menu.js`).

The component is embedded shallowly:

* the string templating pipeline (`replaceHtml`, the HTML-comment stripping
  step of `buildHtml`, `getItemMarker`, `buildHtml` itself) is modelled as
  executable functions on `List Char` / `String`;
* the DOM-facing state machine (`loadMenu`, `open`, `close`, `setOpenCard`,
  `changeOpenCard`, the card navigation events and the `setTimeout`-deferred
  completions) is modelled as functions from an explicit `State` to a trace
  of primitive DOM effects, together with a deterministic interpreter
  `applyTrace`.  A JavaScript exception (e.g. a property access on `null`)
  is modelled by the operation returning `none`.

Browser layout quantities (bounding rectangles, viewport and document
heights, `querySelector` results on caller-supplied markup) are supplied by
an `Env` record of oracles, since they are outside the program text.
-/

namespace SlideMenu

/-! ## String helpers: the `%key%` substitution and HTML-comment stripping -/

/-- `\w` of the JavaScript regex `/%(\w+)%/g` (ASCII letters, digits, `_`). -/
def isWordChar (c : Char) : Bool := c.isAlphanum || c = '_'

/-- `Object.prototype.hasOwnProperty.call(data, key) ? data[key] : ''`:
marker objects are modelled as association lists of own properties. -/
def markerLookup (d : List (String × String)) (k : String) : String :=
  match d.find? (fun kv => kv.1 = k) with
  | some kv => kv.2
  | none => ""

/-- The scan performed by `html.replace(/%(\w+)%/g, ...)` in `replaceHtml`:
leftmost non-overlapping matches of `%(\w+)%`, each replaced by the marker
value of the captured key (empty string for unknown keys); replacement text
is not rescanned. -/
def substChars (d : List (String × String)) : List Char → List Char
  | [] => []
  | c :: rest =>
    if c = '%' then
      let key := rest.takeWhile isWordChar
      match h : rest.drop key.length with
      | '%' :: after =>
        if key.isEmpty then '%' :: substChars d rest
        else (markerLookup d (String.mk key)).data ++ substChars d after
      | _ => '%' :: substChars d rest
    else c :: substChars d rest
termination_by l => l.length
decreasing_by
  · simp only [List.length_cons]; omega
  · have hlen : (rest.drop key.length).length = rest.length - key.length :=
      List.length_drop _ _
    rw [h] at hlen
    simp only [List.length_cons] at hlen ⊢
    omega
  · simp only [List.length_cons]; omega
  · simp only [List.length_cons]; omega

/-- `Madj2kSlideMenu.replaceHtml`: placeholder substitution over a template
string with a marker object. -/
def replaceHtml (html : String) (d : List (String × String)) : String :=
  String.mk (substChars d html.data)

/-- Boolean "pat is a prefix of s" on character lists. -/
def isPre : List Char → List Char → Bool
  | [], _ => true
  | _ :: _, [] => false
  | p :: ps, c :: cs => p = c && isPre ps cs

/-- Boolean "pat occurs as a contiguous substring of s". -/
def containsSub (pat : List Char) : List Char → Bool
  | [] => isPre pat []
  | c :: cs => isPre pat (c :: cs) || containsSub pat cs

/-- Drop everything up to and including the first occurrence of `pat`;
`none` when `pat` does not occur. -/
def dropAfterSub (pat : List Char) : List Char → Option (List Char)
  | [] => if pat.isEmpty then some [] else none
  | c :: cs =>
    if isPre pat (c :: cs) then some ((c :: cs).drop pat.length)
    else dropAfterSub pat cs

theorem dropAfterSub_length {pat : List Char} :
    ∀ {s r : List Char}, dropAfterSub pat s = some r → r.length ≤ s.length := by
  intro s
  induction s with
  | nil =>
    intro r h
    by_cases hp : pat.isEmpty <;> simp [dropAfterSub, hp] at h
    simp [← h]
  | cons c cs ih =>
    intro r h
    by_cases hp : isPre pat (c :: cs)
    · simp [dropAfterSub, hp] at h
      have : r.length = (c :: cs).length - pat.length := by
        rw [← h]; exact List.length_drop _ _
      simp only [List.length_cons] at this ⊢
      omega
    · simp [dropAfterSub, hp] at h
      have := ih h
      simp only [List.length_cons]
      omega

/-- The final `html.replace(/<!--[\s\S]*?-->/g, '')` of `buildHtml`:
scan left to right; at each occurrence of `<!--` drop through the first
following `-->` (the lazy quantifier); an unterminated `<!--` cannot match,
and since no `-->` occurs further right no later comment can match either,
so the remaining text is kept verbatim. -/
def stripComments : List Char → List Char
  | [] => []
  | c :: cs =>
    if isPre ['<', '!', '-', '-'] (c :: cs) then
      match h : dropAfterSub ['-', '-', '>'] (cs.drop 3) with
      | some rest => stripComments rest
      | none => c :: cs
    else c :: stripComments cs
termination_by l => l.length
decreasing_by
  all_goals simp_wf
  rename_i cs hpre
  have h1 := dropAfterSub_length h
  have h2 : (List.drop 3 cs).length = cs.length - 3 := List.length_drop _ _
  omega

/-- String-level wrapper of `stripComments`. -/
def stripCommentsStr (s : String) : String :=
  String.mk (stripComments s.data)

/-! ## The `menuItemsJson` tree -/

/-- The `data` sub-object of a menu item (`item.data.uid`, `item.data.pid`,
`item.data.title`). -/
structure MenuItemData where
  uid : Nat
  pid : Nat
  title : String
deriving DecidableEq

/-- One node of the `menuItemsJson` tree.  `target` and `linkType` are
`Option`s: `none` models an absent / falsy property (the source applies
`item.target || '_self'` and truthiness tests). -/
inductive MenuItem : Type where
  | mk (data : MenuItemData) (title link : String)
       (target linkType : Option String)
       (active current hasSubpages isLinked : Bool)
       (children : List MenuItem)

def MenuItem.data : MenuItem → MenuItemData
  | .mk d _ _ _ _ _ _ _ _ _ => d

def MenuItem.title : MenuItem → String
  | .mk _ t _ _ _ _ _ _ _ _ => t

def MenuItem.link : MenuItem → String
  | .mk _ _ l _ _ _ _ _ _ _ => l

def MenuItem.target : MenuItem → Option String
  | .mk _ _ _ tg _ _ _ _ _ _ => tg

def MenuItem.linkType : MenuItem → Option String
  | .mk _ _ _ _ lt _ _ _ _ _ => lt

def MenuItem.active : MenuItem → Bool
  | .mk _ _ _ _ _ a _ _ _ _ => a

def MenuItem.current : MenuItem → Bool
  | .mk _ _ _ _ _ _ c _ _ _ => c

def MenuItem.hasSubpages : MenuItem → Bool
  | .mk _ _ _ _ _ _ _ hs _ _ => hs

def MenuItem.isLinked : MenuItem → Bool
  | .mk _ _ _ _ _ _ _ _ il _ => il

def MenuItem.children : MenuItem → List MenuItem
  | .mk _ _ _ _ _ _ _ _ _ ch => ch

theorem MenuItem.sizeOf_children_lt (i : MenuItem) :
    sizeOf i.children < sizeOf i := by
  cases i
  simp [MenuItem.children]

/-! ## Status-class and template constants

The class-name options of the constructor's `defaults` object are kept at
their default values in this model. -/

def openStatusClass : String := "open"
def openStatusBodyClass : String := "slide-open"
def openStatusBodyClassOverflow : String := "slide-open-overflow"
def openCardStatusClass : String := "show"
def activeStatusClass : String := "active"
def currentStatusClass : String := "current"
def hasChildrenStatusClass : String := "has-children"
def linkTypeClass : String := "link-type"
def isLinkedClass : String := "linked"
def animationOpenStatusClass : String := "opening"
def animationCloseStatusClass : String := "closing"

/-- `Madj2kSlideMenu.getItemMarker` (key order follows the source object
literal).  Booleans substituted into the template stringify as
`"true"`/`"false"`, numbers in decimal, exactly as JavaScript coerces them. -/
def getItemMarker (item : MenuItem) (parentItem : Option MenuItem) (level : Nat) :
    List (String × String) :=
  [ ("activeClass", if item.active then activeStatusClass else ""),
    ("currentClass", if item.current then currentStatusClass else ""),
    ("levelClass", "level-" ++ toString (level + 1)),
    ("ariaCurrent", if item.current then "page" else ""),
    ("ariaExpanded", if item.current then "true" else "false"),
    ("hasChildrenClass", if item.hasSubpages then hasChildrenStatusClass else ""),
    ("hasChildren", if item.hasSubpages then "true" else "false"),
    ("linkTypeClass",
      match item.linkType with
      | some lt => linkTypeClass ++ "-" ++ lt
      | none => ""),
    ("isLinkedClass", if item.isLinked then isLinkedClass else ""),
    ("uid", toString item.data.uid),
    ("titleRaw", item.data.title),
    ("title", item.title),
    ("link", item.link),
    ("target", item.target.getD "_self"),
    ("parentUid", toString item.data.pid),
    ("parentTitle", (parentItem.map MenuItem.title).getD ""),
    ("parentLink", (parentItem.map MenuItem.link).getD ""),
    ("parentTarget", (parentItem.bind MenuItem.target).getD "_self"),
    ("ifIsLinkedStart", if item.isLinked then "" else "<!--"),
    ("ifIsLinkedEnd", if item.isLinked then "" else "-->"),
    ("ifIsNotLinkedStart", if item.isLinked then "<!--" else ""),
    ("ifIsNotLinkedEnd", if item.isLinked then "-->" else ""),
    ("ifHasChildrenStart", if item.hasSubpages then "" else "<!--"),
    ("ifHasChildrenEnd", if item.hasSubpages then "" else "-->"),
    ("ifHasNoChildrenStart", if item.hasSubpages then "<!--" else ""),
    ("ifHasNoChildrenEnd", if item.hasSubpages then "-->" else "") ]

/-- The three HTML template fragments read from
`.js-slide-nav-tmpl[data-type=...]` elements. -/
structure Templates where
  menuWrap : String
  menuItem : String
  subMenuWrap : String
deriving DecidableEq

mutual

/-- The `items.forEach` accumulation of `buildHtml`: one instantiation of the
`menuItem` template per list entry, with the `submenu` marker property added
only when `item.hasSubpages && item.children?.length`. -/
def buildInner (t : Templates) : List MenuItem → Option MenuItem → Nat → String
  | [], _, _ => ""
  | i :: rest, parentItem, level =>
    buildItemHtml t i parentItem level ++ buildInner t rest parentItem level
termination_by l _ _ => (sizeOf l, 0)

/-- The html contributed by a single item inside the `forEach` of
`buildHtml`: `replaceHtml(menuItemTemplate, marker)`. -/
def buildItemHtml (t : Templates) (i : MenuItem) (parentItem : Option MenuItem)
    (level : Nat) : String :=
  replaceHtml t.menuItem
    (getItemMarker i parentItem level ++
      (if i.hasSubpages && !i.children.isEmpty then
        [("submenu", buildWithParent t i.children i (level + 1))]
      else []))
termination_by (sizeOf i, 2)
decreasing_by
  exact Prod.Lex.left _ _ (MenuItem.sizeOf_children_lt i)

/-- The recursive call `this.buildHtml(item.children, item, level + 1)`:
since `parentItem` is non-null there, the result is the `subMenuWrap`
template instantiated with the parent's marker plus `menuItems`, followed by
the comment-stripping step. -/
def buildWithParent (t : Templates) (items : List MenuItem) (p : MenuItem)
    (level : Nat) : String :=
  stripCommentsStr
    (replaceHtml t.subMenuWrap
      (getItemMarker p none level ++
        [("menuItems", buildInner t items (some p) level)]))
termination_by (sizeOf items, 1)

end

/-- `Madj2kSlideMenu.buildHtml`.  With `parentItem = null` and an empty
`items` array the source dereferences `items[0].data.pid` on `undefined`
and throws; this is the `none` result. -/
def buildHtml (t : Templates) (items : List MenuItem)
    (parentItem : Option MenuItem) (level : Nat) : Option String :=
  match parentItem with
  | some p => some (buildWithParent t items p level)
  | none =>
    match items with
    | [] => none
    | i0 :: _ =>
      some (stripCommentsStr
        (replaceHtml t.menuWrap
          [ ("uid", toString i0.data.pid),
            ("menuItems", buildInner t items none level),
            ("levelClass", "level-1") ]))

/-- The depth-first list of rendered menu-item blocks produced by
`buildHtml`: the same traversal as the `forEach` of `buildHtml`, collecting
the `replaceHtml(menuItemTemplate, marker)` string of each visited item. -/
def buildBlocks (t : Templates) : List MenuItem → Option MenuItem → Nat → List String
  | [], _, _ => []
  | i :: rest, parentItem, level =>
    buildItemHtml t i parentItem level ::
      ((if i.hasSubpages && !i.children.isEmpty then
          buildBlocks t i.children (some i) (level + 1)
        else []) ++ buildBlocks t rest parentItem level)
termination_by l => sizeOf l
decreasing_by
  all_goals simp_wf
  all_goals refine lt_of_lt_of_le (MenuItem.sizeOf_children_lt _) ?_
  all_goals omega

/-- The number of items in a `menuItemsJson` forest (every node counted). -/
def treeCount : List MenuItem → Nat
  | [] => 0
  | i :: rest => 1 + treeCount i.children + treeCount rest
termination_by l => sizeOf l
decreasing_by
  all_goals simp_wf
  all_goals refine lt_of_lt_of_le (MenuItem.sizeOf_children_lt _) ?_
  all_goals omega

/-- Validity of a `MenuItem` forest: a node with a non-empty `children`
array carries `hasSubpages` (the tree's `hasChildren` flag is consistent
with its shape). -/
def wfItems : List MenuItem → Bool
  | [] => true
  | i :: rest =>
    (i.children.isEmpty || i.hasSubpages) && wfItems i.children && wfItems rest
termination_by l => sizeOf l
decreasing_by
  all_goals simp_wf
  all_goals refine lt_of_lt_of_le (MenuItem.sizeOf_children_lt _) ?_
  all_goals omega

/-! ## The DOM-facing state machine

The mutable browser state the controller touches is collected in `State`;
each method is modelled as a function producing a trace of primitive DOM
effects (`Eff`), interpreted by `applyTrace`.  `none` models a thrown
JavaScript exception (the partial mutations before a throw are not needed
by any claim and are discarded with it).  `requestAnimationFrame` inside
`animateElement` is collapsed into the same trace, and per-element
`tabindex` attributes are abstracted to one flag per card. -/

def evFlyoutClose : String := "madj2k-flyoutmenu-close"
def evOpening : String := "madj2k-slidemenu-opening"
def evOpened : String := "madj2k-slidemenu-opened"
def evClosing : String := "madj2k-slidemenu-closing"
def evClosed : String := "madj2k-slidemenu-closed"
def evNextOpened : String := "madj2k-slidemenu-next-opened"
def evPrevOpened : String := "madj2k-slidemenu-previous-opened"

def warnNoMenu : String := "Menu container not found. Can not load menu."

/-- One `.js-slide-nav-card` element.  `ancestors` are the ids of the
enclosing cards in the DOM (the `parentElement` walk of `repositionCards`);
`inViewport` is the layout oracle used by `toggleTabIndexOnOpenCard`;
`tabDisabled` abstracts `tabindex="-1"` on all focusable descendants;
`hasFocusable` tells whether the card contains a focusable first item. -/
structure Card where
  id : Nat
  classes : List String
  ancestors : List Nat
  inViewport : Bool
  hasFocusable : Bool
  left : String
  height : String
  transition : String
  tabDisabled : Bool
deriving DecidableEq

/-- The cached `settings.$menuWrap` element (style fields only). -/
structure WrapEl where
  top : String
  transition : String
deriving DecidableEq

/-- The menu container referenced by the toggle's `aria-controls`. -/
structure MenuEl where
  classes : List String
  innerHtml : String
  top : String
deriving DecidableEq

/-- The non-class-name configuration options (class-name options are fixed
at their defaults, see above). -/
structure Config where
  menuItemsJson : List MenuItem
  animationDuration : Nat
  loadOnOpen : Bool
  startOnHome : Bool
  scrollHelper : Bool

/-- Browser/document oracles: template elements found in the document,
the result of parsing markup into card elements, and layout quantities. -/
structure Env where
  tmplMenuWrap : Option String
  tmplMenuItem : Option String
  tmplSubMenuWrap : Option String
  parseCards : String → List Card
  parseWrap : String → Option WrapEl
  refBottom : Int
  innerHeight : Int
  scrollHeight : Int
  nextToggleFor : Nat → Bool

inductive FocusT where
  | toggleEl
  | cardItem (id : Nat)
deriving DecidableEq

/-- A `setTimeout` callback still pending. -/
inductive Pending where
  | openDone
  | closeDone
  | nextDone (id : Nat)
  | prevDone (controlled parentCard : Nat)
  | focusEl (f : FocusT)
deriving DecidableEq

/-- Mutation targets. -/
inductive Tgt where
  | menu
  | toggle
  | body
  | card (id : Nat)
deriving DecidableEq

/-- Primitive DOM effects. -/
inductive Eff where
  | dispatch (name : String)
  | warn (msg : String)
  | addClass (t : Tgt) (c : String)
  | removeClass (t : Tgt) (c : String)
  | setAria (v : String)
  | setExpandedNext (v : Option Nat)
  | setMenuTop (v : String)
  | setInner (h : String)
  | setWrapEl (w : WrapEl)
  | setWrapTop (v : String)
  | setWrapTransition (v : String)
  | setCards (cs : List Card)
  | setActiveCards (ids : List Nat)
  | setOpen (c : Option Nat)
  | setLoaded
  | bindAll
  | cardLeft (id : Nat) (v : String)
  | cardHeight (id : Nat) (v : String)
  | cardTransition (id : Nat) (v : String)
  | disableTabAll
  | enableTabVisible (id : Nat)
  | setHelperAttr (v : Option Int)
  | setFrozen (b : Bool)
  | scrollTo (y : Int)
  | schedule (d : Nat) (p : Pending)
  | focusNow (f : FocusT)
deriving DecidableEq

/-- The state touched by the controller: its `settings` caches plus the
DOM pieces it mutates, the dispatched-event log, console warnings, and the
pending timers. -/
structure State where
  isLoaded : Bool
  menu : Option MenuEl
  menuWrap : Option WrapEl
  cards : List Card
  activeCards : List Nat
  openCard : Option Nat
  toggleClasses : List String
  ariaExpanded : String
  expandedNextToggle : Option Nat
  bodyClasses : List String
  scrollTop : Int
  helperScrollTopAttr : Option Int
  helperFrozen : Bool
  focused : Option FocusT
  eventLog : List String
  warnings : List String
  pendings : List (Nat × Pending)
  bindCount : Nat
deriving DecidableEq

/-- `classList.contains`. -/
def hasCls (l : List String) (c : String) : Bool := l.any (fun x => x = c)

/-- `classList.add` (token lists are duplicate-free). -/
def addCls (l : List String) (c : String) : List String :=
  if hasCls l c then l else l ++ [c]

/-- `classList.remove`. -/
def removeCls (l : List String) (c : String) : List String :=
  l.filter (fun x => x ≠ c)

/-- Update every cached card carrying the given element id. -/
def updCard (cs : List Card) (i : Nat) (f : Card → Card) : List Card :=
  cs.map (fun c => if c.id = i then f c else c)

def applyClassF (s : State) (t : Tgt) (f : List String → List String) : State :=
  match t with
  | .menu => { s with menu := s.menu.map (fun m => { m with classes := f m.classes }) }
  | .toggle => { s with toggleClasses := f s.toggleClasses }
  | .body => { s with bodyClasses := f s.bodyClasses }
  | .card i => { s with cards := updCard s.cards i (fun c => { c with classes := f c.classes }) }

/-- Interpreter for a single primitive effect. -/
def applyEff (s : State) (e : Eff) : State :=
  match e with
  | .dispatch n => { s with eventLog := s.eventLog ++ [n] }
  | .warn m => { s with warnings := s.warnings ++ [m] }
  | .addClass t c => applyClassF s t (fun l => addCls l c)
  | .removeClass t c => applyClassF s t (fun l => removeCls l c)
  | .setAria v => { s with ariaExpanded := v }
  | .setExpandedNext v => { s with expandedNextToggle := v }
  | .setMenuTop v => { s with menu := s.menu.map (fun m => { m with top := v }) }
  | .setInner h => { s with menu := s.menu.map (fun m => { m with innerHtml := h }) }
  | .setWrapEl w => { s with menuWrap := some w }
  | .setWrapTop v => { s with menuWrap := s.menuWrap.map (fun w => { w with top := v }) }
  | .setWrapTransition v =>
      { s with menuWrap := s.menuWrap.map (fun w => { w with transition := v }) }
  | .setCards cs => { s with cards := cs }
  | .setActiveCards ids => { s with activeCards := ids }
  | .setOpen c => { s with openCard := c }
  | .setLoaded => { s with isLoaded := true }
  | .bindAll => { s with bindCount := s.bindCount + 1 }
  | .cardLeft i v => { s with cards := updCard s.cards i (fun c => { c with left := v }) }
  | .cardHeight i v => { s with cards := updCard s.cards i (fun c => { c with height := v }) }
  | .cardTransition i v =>
      { s with cards := updCard s.cards i (fun c => { c with transition := v }) }
  | .disableTabAll => { s with cards := s.cards.map (fun c => { c with tabDisabled := true }) }
  | .enableTabVisible i =>
      { s with cards := updCard s.cards i (fun c => { c with tabDisabled := !c.inViewport }) }
  | .setHelperAttr v => { s with helperScrollTopAttr := v }
  | .setFrozen b => { s with helperFrozen := b }
  | .scrollTo y => { s with scrollTop := y }
  | .schedule d p => { s with pendings := s.pendings ++ [(d, p)] }
  | .focusNow f => { s with focused := some f }

/-- Interpreter for an effect trace. -/
def applyTrace (s : State) (t : List Eff) : State := t.foldl applyEff s

/-! ### The controller's methods as effect-trace producers -/

/-- `positionMenu`: `menu.style.top = rect.bottom + 'px'`. -/
def positionMenuEffs (env : Env) : List Eff :=
  [Eff.setMenuTop (toString env.refBottom ++ "px")]

/-- `resizeCards`: every card's height becomes the viewport space below the
reference element. -/
def resizeCardsEffs (env : Env) (s : State) : List Eff :=
  s.cards.map (fun c => Eff.cardHeight c.id (toString (env.innerHeight - env.refBottom) ++ "px"))

/-- `repositionCards`: all cards jump to `left:100%`, the open card and its
ancestor cards to `left:0`.  The `parentElement` walk dereferences
`$openCard` without a guard, hence `none` when no card is open. -/
def repositionCardsEffs (s : State) : Option (List Eff) :=
  let base := s.cards.bind (fun c => [Eff.cardTransition c.id "none", Eff.cardLeft c.id "100%"])
  match s.openCard with
  | none => none
  | some cid =>
    let anc := ((s.cards.find? (fun c => c.id = cid)).map Card.ancestors).getD []
    some (base ++ [Eff.cardLeft cid "0"] ++ anc.map (fun a => Eff.cardLeft a "0"))

/-- `animateElement` on a card element (`requestAnimationFrame` collapsed). -/
def animateCardEffs (cfg : Config) (id : Nat) (fromL toL : String) : List Eff :=
  [ Eff.cardTransition id "none", Eff.cardLeft id fromL,
    Eff.cardTransition id ("all " ++ toString cfg.animationDuration ++ "ms ease"),
    Eff.cardLeft id toL ]

/-- `animateElement` on `settings.$menuWrap`; a missing wrap element (never
cached by a successful load) is a thrown `TypeError`. -/
def animateWrapEffs (cfg : Config) (s : State) (fromT toT : String) : Option (List Eff) :=
  match s.menuWrap with
  | none => none
  | some _ =>
    some [ Eff.setWrapTransition "none", Eff.setWrapTop fromT,
      Eff.setWrapTransition ("all " ++ toString cfg.animationDuration ++ "ms ease"),
      Eff.setWrapTop toT ]

/-- `toggleNoScroll`.  When the body does not yet carry the
`slide-open` class the scroll position is frozen; note that when the
document does not overflow the viewport `noScrollClass` stays `''` and
`classList.add('')` throws a `SyntaxError` (`none`). -/
def toggleNoScrollEffs (env : Env) (cfg : Config) (s : State) : Option (List Eff) :=
  if cfg.scrollHelper then
    let noScrollClass :=
      if env.scrollHeight > env.innerHeight then openStatusBodyClassOverflow else ""
    if hasCls s.bodyClasses openStatusBodyClass then
      some [ Eff.setFrozen false, Eff.removeClass .body openStatusBodyClassOverflow,
             Eff.scrollTo (-(s.helperScrollTopAttr.getD 0)) ]
    else
      if noScrollClass = "" then none
      else
        some [ Eff.setHelperAttr (some (-s.scrollTop)), Eff.setFrozen true,
               Eff.addClass .body noScrollClass, Eff.scrollTo 0 ]
  else some []

/-- `setOpenCard`: record the card, strip the `show` class from every
cached card, add it to the new one.  A missing card (`undefined` element)
is a thrown `TypeError`. -/
def setOpenCardEffs (s : State) (card : Option Nat) : Option (List Eff) :=
  match card with
  | none => none
  | some cid =>
    some ([Eff.setOpen (some cid)] ++
      s.cards.map (fun c => Eff.removeClass (.card c.id) openCardStatusClass) ++
      [Eff.addClass (.card cid) openCardStatusClass])

/-- `toggleTabIndexOnOpenCard`: always disable everywhere; when the toggle
carries `open`, re-enable the open card's in-viewport descendants (reading
`$openCard` unguarded). -/
def toggleTabEffs (s : State) : Option (List Eff) :=
  if hasCls s.toggleClasses openStatusClass then
    match s.openCard with
    | none => none
    | some cid => some [Eff.disableTabAll, Eff.enableTabVisible cid]
  else some [Eff.disableTabAll]

/-- `toggleWaiAriaForOpenCard`: all next-card toggles get
`aria-expanded="false"`; when the toggle carries `open`, the toggle
controlling the open card (if present) gets `"true"`. -/
def toggleWaiAriaEffs (env : Env) (s : State) : Option (List Eff) :=
  if hasCls s.toggleClasses openStatusClass then
    match s.openCard with
    | none => none
    | some cid =>
      some ([Eff.setExpandedNext none] ++
        (if env.nextToggleFor cid then [Eff.setExpandedNext (some cid)] else []))
  else some [Eff.setExpandedNext none]

/-- `focusFirstItemOfOpenCard` (optional chaining on `$openCard`, so never
throws); the focusable query excludes `tabindex`-carrying elements. -/
def focusFirstEffs (s : State) : List Eff :=
  match s.openCard with
  | none => []
  | some cid =>
    match s.cards.find? (fun c => c.id = cid) with
    | some c =>
      if c.hasFocusable && !c.tabDisabled then
        [Eff.schedule 0 (Pending.focusEl (FocusT.cardItem cid))]
      else []
    | none => []

/-- `changeOpenCard`. -/
def changeOpenCardEffs (env : Env) (s : State) (cid : Nat) : Option (List Eff) :=
  match setOpenCardEffs s (some cid) with
  | none => none
  | some t1 =>
    let s1 := applyTrace s t1
    match toggleTabEffs s1 with
    | none => none
    | some t2 =>
      let s2 := applyTrace s1 t2
      match toggleWaiAriaEffs env s2 with
      | none => none
      | some t3 =>
        let s3 := applyTrace s2 t3
        some (t1 ++ t2 ++ t3 ++ focusFirstEffs s3)

/-- The template-and-rebuild step of `loadMenu`: when `menuItemsJson` is
non-empty and the three template fragments are found and non-empty, the
menu container's HTML is replaced by `buildHtml(menuItemsJson)`; otherwise
the existing markup is kept.  `buildHtml` is invoked only under the
`menuItemsJson.length` guard. -/
def loadMenuHtmlStep (env : Env) (cfg : Config) (m : MenuEl) :
    Option (List Eff × String) :=
  let tW := env.tmplMenuWrap.getD ""
  let tI := env.tmplMenuItem.getD ""
  let tS := env.tmplSubMenuWrap.getD ""
  if cfg.menuItemsJson.isEmpty then some ([], m.innerHtml)
  else if tW ≠ "" && tI ≠ "" && tS ≠ "" then
    match buildHtml ⟨tW, tI, tS⟩ cfg.menuItemsJson none 0 with
    | some h => some ([Eff.setInner h], h)
    | none => none
  else some ([], m.innerHtml)

/-- `loadMenu`. -/
def loadMenu (env : Env) (cfg : Config) (s : State) : Option (Bool × List Eff) :=
  if s.isLoaded then some (true, [])
  else
    match s.menu with
    | none => some (false, [Eff.warn warnNoMenu])
    | some m =>
      match loadMenuHtmlStep env cfg m with
      | none => none
      | some (e1, html) =>
        let cards0 := env.parseCards html
        let e2 :=
          match cards0 with
          | [] => ([] : List Eff)
          | c0 :: _ => [Eff.addClass (.card c0.id) activeStatusClass]
        let cards1 :=
          match cards0 with
          | [] => cards0
          | c0 :: _ =>
            updCard cards0 c0.id (fun c => { c with classes := addCls c.classes activeStatusClass })
        let actives := (cards1.filter (fun c => hasCls c.classes activeStatusClass)).map Card.id
        match env.parseWrap html with
        | none => none
        | some w =>
          some (true, e1 ++ [Eff.setWrapEl w, Eff.setCards cards0] ++ e2 ++
            [Eff.setActiveCards actives, Eff.setWrapTop "-100%", Eff.setLoaded, Eff.bindAll])

/-- `open`. -/
def openOp (env : Env) (cfg : Config) (s : State) : Option (Bool × List Eff) :=
  match loadMenu env cfg s with
  | none => none
  | some (ok, lt) =>
    if ok then
      let s1 := applyTrace s lt
      match s1.menu with
      | none => none
      | some m =>
        if hasCls m.classes openStatusClass || hasCls m.classes animationOpenStatusClass then
          some (false, lt)
        else
          let t1 := lt ++ [Eff.dispatch evFlyoutClose, Eff.dispatch evOpening]
          let sA := applyTrace s t1
          match toggleNoScrollEffs env cfg sA with
          | none => none
          | some tns =>
            let t2 := tns ++ [Eff.disableTabAll] ++ positionMenuEffs env ++
              [ Eff.addClass .menu openStatusClass, Eff.addClass .menu animationOpenStatusClass,
                Eff.addClass .toggle openStatusClass, Eff.addClass .toggle animationOpenStatusClass,
                Eff.setAria "true" ]
            let sB := applyTrace sA t2
            let idx := if cfg.startOnHome then 0 else sB.activeCards.length - 1
            match setOpenCardEffs sB sB.activeCards[idx]? with
            | none => none
            | some t3 =>
              let sC := applyTrace sB t3
              let t4 := resizeCardsEffs env sC
              let sD := applyTrace sC t4
              match repositionCardsEffs sD with
              | none => none
              | some t5 =>
                let sE := applyTrace sD t5
                match animateWrapEffs cfg sE "-100%" "0" with
                | none => none
                | some t6 =>
                  some (true, t1 ++ t2 ++ t3 ++ t4 ++ t5 ++ t6 ++
                    [Eff.schedule cfg.animationDuration Pending.openDone])
    else some (false, lt)

/-- `close`.  Note the unguarded `this.settings.$menu.classList` read: with
a missing menu container this is a thrown `TypeError` (`none`). -/
def closeOp (env : Env) (cfg : Config) (s : State) : Option (Bool × List Eff) :=
  match s.menu with
  | none => none
  | some m =>
    if !hasCls m.classes openStatusClass || hasCls m.classes animationCloseStatusClass then
      some (false, [])
    else
      let t1 := [ Eff.dispatch evClosing, Eff.addClass .menu animationCloseStatusClass,
                  Eff.addClass .toggle animationCloseStatusClass,
                  Eff.removeClass .toggle openStatusClass, Eff.setAria "false" ]
      let s1 := applyTrace s t1
      match toggleTabEffs s1 with
      | none => none
      | some t2 =>
        let s2 := applyTrace s1 t2
        match toggleWaiAriaEffs env s2 with
        | none => none
        | some t3 =>
          let s3 := applyTrace s2 t3
          match animateWrapEffs cfg s3 "0" "-100%" with
          | none => none
          | some t4 =>
            some (true,
              t1 ++ t2 ++ t3 ++ t4 ++ [Eff.schedule cfg.animationDuration Pending.closeDone])

/-- The document-level `madj2k-slidemenu-close` listener (`closeEvent`):
`preventDefault` has no model content, then `close()`. -/
def closeEventOp (env : Env) (cfg : Config) (s : State) : Option (Bool × List Eff) :=
  closeOp env cfg s

/-- `toggleEvent`: `if (!this.open()) this.close()`. -/
def toggleEventOp (env : Env) (cfg : Config) (s : State) : Option (List Eff) :=
  match openOp env cfg s with
  | none => none
  | some (true, t) => some t
  | some (false, t) =>
    match closeOp env cfg (applyTrace s t) with
    | none => none
    | some (_, t2) => some (t ++ t2)

/-- `nextCardEvent` (synchronous part); `controlled` is the
`getElementById` result for the target's `aria-controls`. -/
def nextCardEventOp (cfg : Config) (controlled : Option Nat) : List Eff :=
  match controlled with
  | none => []
  | some cid =>
    [Eff.disableTabAll, Eff.addClass (.card cid) animationOpenStatusClass] ++
      animateCardEffs cfg cid "100%" "0" ++
      [Eff.schedule cfg.animationDuration (Pending.nextDone cid)]

/-- `previousCardEvent` (synchronous part). -/
def previousCardEventOp (cfg : Config) (controlled parentC : Option Nat) : List Eff :=
  match controlled, parentC with
  | some cid, some pid =>
    [Eff.disableTabAll, Eff.addClass (.card cid) animationCloseStatusClass] ++
      animateCardEffs cfg cid "0" "100%" ++
      [Eff.schedule cfg.animationDuration (Pending.prevDone cid pid)]
  | _, _ => []

/-- The `setTimeout` callbacks. -/
def runPending (env : Env) (cfg : Config) (s : State) : Pending → Option (List Eff)
  | .openDone =>
    let t1 := [ Eff.removeClass .menu animationOpenStatusClass,
                Eff.removeClass .toggle animationOpenStatusClass ]
    let s1 := applyTrace s t1
    match toggleTabEffs s1 with
    | none => none
    | some t2 =>
      let s2 := applyTrace s1 t2
      match toggleWaiAriaEffs env s2 with
      | none => none
      | some t3 =>
        let s3 := applyTrace s2 t3
        some (t1 ++ t2 ++ t3 ++ focusFirstEffs s3 ++ [Eff.dispatch evOpened])
  | .closeDone =>
    let t1 := [ Eff.removeClass .menu openStatusClass,
                Eff.removeClass .menu animationCloseStatusClass,
                Eff.removeClass .toggle animationCloseStatusClass ]
    let s1 := applyTrace s t1
    match toggleNoScrollEffs env cfg s1 with
    | none => none
    | some t2 => some (t1 ++ t2 ++ [Eff.dispatch evClosed])
  | .nextDone cid =>
    match changeOpenCardEffs env s cid with
    | none => none
    | some t1 =>
      some (t1 ++ [Eff.removeClass (.card cid) animationOpenStatusClass, Eff.dispatch evNextOpened])
  | .prevDone controlled parentC =>
    match changeOpenCardEffs env s parentC with
    | none => none
    | some t1 =>
      some (t1 ++
        [Eff.removeClass (.card controlled) animationCloseStatusClass, Eff.dispatch evPrevOpened])
  | .focusEl f => some [Eff.focusNow f]

/-! ## Concrete fixtures used by witnesses and counterexamples -/

def envA : Env :=
  { tmplMenuWrap := none, tmplMenuItem := none, tmplSubMenuWrap := none,
    parseCards := fun _ => [], parseWrap := fun _ => none,
    refBottom := 40, innerHeight := 800, scrollHeight := 1200,
    nextToggleFor := fun _ => false }

def cfgA : Config :=
  { menuItemsJson := [], animationDuration := 500, loadOnOpen := true,
    startOnHome := false, scrollHelper := true }

/-- A freshly constructed controller whose toggle's `aria-controls`
matches no element (`document.getElementById` returned `null`). -/
def stateNoMenu : State :=
  { isLoaded := false, menu := none, menuWrap := none, cards := [], activeCards := [],
    openCard := none, toggleClasses := [], ariaExpanded := "false",
    expandedNextToggle := none, bodyClasses := [], scrollTop := 0,
    helperScrollTopAttr := none, helperFrozen := false, focused := none,
    eventLog := [], warnings := [], pendings := [], bindCount := 0 }

def menuOpenClosing : MenuEl :=
  { classes := [openStatusClass, animationCloseStatusClass], innerHtml := "", top := "" }

def stateOpenClosing : State :=
  { stateNoMenu with isLoaded := true, menu := some menuOpenClosing }

def stateLoadedA : State :=
  { stateNoMenu with isLoaded := true }

def itemLeafA (u : Nat) : MenuItem :=
  MenuItem.mk ⟨u, 1, "leaf"⟩ "Leaf" "/leaf" none none false false false true []

def itemParentA : MenuItem :=
  MenuItem.mk ⟨1, 0, "parent"⟩ "Parent" "/parent" none none true false true true
    [itemLeafA 2, itemLeafA 3]

def tmplA : Templates :=
  ⟨"<nav>%menuItems%</nav>", "<li>%title%%submenu%</li>", "<ul>%menuItems%</ul>"⟩

def menuOpenA : MenuEl := { classes := [openStatusClass], innerHtml := "", top := "" }

def wrapA : WrapEl := { top := "0", transition := "" }


def cardA : Card :=
  { id := 1, classes := [activeStatusClass], ancestors := [], inViewport := true,
    hasFocusable := true, left := "", height := "", transition := "", tabDisabled := false }

/-- A loaded, closed menu state ready to open. -/
def stateReadyA : State :=
  { stateNoMenu with
      isLoaded := true
      menu := some { classes := [], innerHtml := "", top := "" }
      menuWrap := some wrapA
      cards := [cardA]
      activeCards := [1] }

/-- The effect trace of `open()` at `stateReadyA`. -/
def openTraceA : List Eff :=
  match openOp envA cfgA stateReadyA with
  | some (_, t) => t
  | none => []

/-- The effect trace of `setOpenCard` at `stateReadyA` targeting card 1. -/
def openCardTraceA : List Eff :=
  (setOpenCardEffs stateReadyA (some 1)).getD []

/-- A loaded, open menu state. -/
def stateOpenA : State :=
  { stateNoMenu with
      isLoaded := true
      menu := some menuOpenA
      menuWrap := some wrapA
      toggleClasses := [openStatusClass]
      ariaExpanded := "true" }


/-- The menu element's `classList.contains`, `false` when the menu element
is missing. -/
def menuCls (s : State) (c : String) : Bool :=
  match s.menu with
  | some m => hasCls m.classes c
  | none => false

/-- `classList` mutations (any target). -/
def classEff : Eff → Bool
  | .addClass _ _ => true
  | .removeClass _ _ => true
  | _ => false

/-- Effects that touch neither `$openCard`, `$activeCards` nor any card's
id or class list. -/
def navKeep : Eff → Bool
  | .addClass t _ => (match t with | .card _ => false | _ => true)
  | .removeClass t _ => (match t with | .card _ => false | _ => true)
  | .setCards _ => false
  | .setActiveCards _ => false
  | .setOpen _ => false
  | _ => true

/-- The C4 invariant: `$openCard` names a card, exactly that card carries
the open-card status class `show`, and no other card does. -/
def uniqueShow (s : State) (cid : Nat) : Prop :=
  s.openCard = some cid ∧
  (∀ c ∈ s.cards, (hasCls c.classes openCardStatusClass = true ↔ c.id = cid)) ∧
  s.cards.countP (fun c => hasCls c.classes openCardStatusClass) = 1

/-! ## Claims -/

/-! ### classList lemmas -/

theorem hasCls_true_iff (l : List String) (c : String) :
    hasCls l c = true ↔ c ∈ l := by
  simp only [hasCls, List.any_eq_true, decide_eq_true_eq]
  constructor
  · rintro ⟨x, hx, rfl⟩
    exact hx
  · exact fun h => ⟨c, h, rfl⟩

theorem mem_removeCls (l : List String) (a x : String) :
    x ∈ removeCls l a ↔ (x ∈ l ∧ x ≠ a) := by
  simp [removeCls, List.mem_filter]

theorem mem_addCls (l : List String) (a x : String) :
    x ∈ addCls l a ↔ (x ∈ l ∨ x = a) := by
  rw [addCls]
  by_cases h : hasCls l a = true
  · rw [if_pos h]
    have ha : a ∈ l := (hasCls_true_iff l a).mp h
    constructor
    · exact Or.inl
    · rintro (hx | rfl)
      · exact hx
      · exact ha
  · rw [if_neg (by simp [h])]
    simp

theorem hasCls_removeCls_self (l : List String) (c : String) :
    hasCls (removeCls l c) c = false := by
  rw [Bool.eq_false_iff, Ne, hasCls_true_iff, mem_removeCls]
  simp

theorem hasCls_addCls_self (l : List String) (c : String) :
    hasCls (addCls l c) c = true := by
  rw [hasCls_true_iff, mem_addCls]
  exact Or.inr rfl

theorem hasCls_addCls_ne (l : List String) (a b : String) (h : a ≠ b) :
    hasCls (addCls l a) b = hasCls l b := by
  rw [Bool.eq_iff_iff, hasCls_true_iff, hasCls_true_iff, mem_addCls]
  constructor
  · rintro (hx | rfl)
    · exact hx
    · exact absurd rfl h
  · exact Or.inl

theorem hasCls_removeCls_ne (l : List String) (a b : String) (h : a ≠ b) :
    hasCls (removeCls l a) b = hasCls l b := by
  rw [Bool.eq_iff_iff, hasCls_true_iff, hasCls_true_iff, mem_removeCls]
  constructor
  · exact fun hx => hx.1
  · exact fun hx => ⟨hx, fun he => h he.symm⟩

/-! ### Effect-trace preservation lemmas -/

theorem applyClassF_openCard (s : State) (tg : Tgt) (f : List String → List String) :
    (applyClassF s tg f).openCard = s.openCard := by
  cases tg <;> rfl

theorem applyClassF_activeCards (s : State) (tg : Tgt) (f : List String → List String) :
    (applyClassF s tg f).activeCards = s.activeCards := by
  cases tg <;> rfl

theorem applyEff_classEff_nav (s : State) (e : Eff) (h : classEff e = true) :
    (applyEff s e).openCard = s.openCard ∧ (applyEff s e).activeCards = s.activeCards := by
  cases e <;> simp [classEff] at h <;>
    exact ⟨by simp [applyEff, applyClassF_openCard],
           by simp [applyEff, applyClassF_activeCards]⟩

theorem applyTrace_classEff_nav (t : List Eff) :
    ∀ s : State, (∀ e ∈ t, classEff e = true) →
      (applyTrace s t).openCard = s.openCard ∧ (applyTrace s t).activeCards = s.activeCards := by
  induction t with
  | nil => intro s _; exact ⟨rfl, rfl⟩
  | cons e t ih =>
    intro s h
    have he := h e (List.mem_cons_self e t)
    have h1 := applyEff_classEff_nav s e he
    have h2 := ih (applyEff s e) (fun x hx => h x (List.mem_cons_of_mem e hx))
    simp only [applyTrace, List.foldl_cons] at *
    exact ⟨h2.1.trans h1.1, h2.2.trans h1.2⟩

theorem updCard_map_of (cs : List Card) (i : Nat) (f : Card → Card)
    (g : Card → Nat × List String)
    (hf : ∀ c, g (f c) = g c) :
    (updCard cs i f).map g = cs.map g := by
  rw [updCard, List.map_map]
  induction cs with
  | nil => rfl
  | cons c cs ih =>
    simp only [List.map_cons, ih]
    by_cases hc : c.id = i <;> simp [hc, hf]

theorem applyEff_nav (s : State) (e : Eff) (h : navKeep e = true) :
    (applyEff s e).openCard = s.openCard ∧ (applyEff s e).activeCards = s.activeCards ∧
    (applyEff s e).cards.map (fun c => (c.id, c.classes))
      = s.cards.map (fun c => (c.id, c.classes)) := by
  cases e with
  | addClass tg c =>
    refine ⟨applyClassF_openCard _ _ _, applyClassF_activeCards _ _ _, ?_⟩
    cases tg with
    | card i =>
      simp [navKeep] at h
    | menu => rfl
    | toggle => rfl
    | body => rfl
  | removeClass tg c =>
    refine ⟨applyClassF_openCard _ _ _, applyClassF_activeCards _ _ _, ?_⟩
    cases tg with
    | card i =>
      simp [navKeep] at h
    | menu => rfl
    | toggle => rfl
    | body => rfl
  | setCards cs => simp [navKeep] at h
  | setActiveCards l => simp [navKeep] at h
  | setOpen c => simp [navKeep] at h
  | cardLeft i v =>
    exact ⟨rfl, rfl, updCard_map_of _ _ _ _ (fun c => rfl)⟩
  | cardHeight i v =>
    exact ⟨rfl, rfl, updCard_map_of _ _ _ _ (fun c => rfl)⟩
  | cardTransition i v =>
    exact ⟨rfl, rfl, updCard_map_of _ _ _ _ (fun c => rfl)⟩
  | enableTabVisible i =>
    exact ⟨rfl, rfl, updCard_map_of _ _ _ _ (fun c => rfl)⟩
  | disableTabAll =>
    refine ⟨rfl, rfl, ?_⟩
    simp [applyEff, List.map_map]
  | dispatch n => exact ⟨rfl, rfl, rfl⟩
  | warn m => exact ⟨rfl, rfl, rfl⟩
  | setAria v => exact ⟨rfl, rfl, rfl⟩
  | setExpandedNext v => exact ⟨rfl, rfl, rfl⟩
  | setMenuTop v => exact ⟨rfl, rfl, rfl⟩
  | setInner hh => exact ⟨rfl, rfl, rfl⟩
  | setWrapEl w => exact ⟨rfl, rfl, rfl⟩
  | setWrapTop v => exact ⟨rfl, rfl, rfl⟩
  | setWrapTransition v => exact ⟨rfl, rfl, rfl⟩
  | setLoaded => exact ⟨rfl, rfl, rfl⟩
  | bindAll => exact ⟨rfl, rfl, rfl⟩
  | setHelperAttr v => exact ⟨rfl, rfl, rfl⟩
  | setFrozen b => exact ⟨rfl, rfl, rfl⟩
  | scrollTo y => exact ⟨rfl, rfl, rfl⟩
  | schedule d p => exact ⟨rfl, rfl, rfl⟩
  | focusNow f => exact ⟨rfl, rfl, rfl⟩

theorem applyTrace_nav (t : List Eff) :
    ∀ s : State, (∀ e ∈ t, navKeep e = true) →
      (applyTrace s t).openCard = s.openCard ∧ (applyTrace s t).activeCards = s.activeCards ∧
      (applyTrace s t).cards.map (fun c => (c.id, c.classes))
        = s.cards.map (fun c => (c.id, c.classes)) := by
  induction t with
  | nil => intro s _; exact ⟨rfl, rfl, rfl⟩
  | cons e t ih =>
    intro s h
    have h1 := applyEff_nav s e (h e (List.mem_cons_self e t))
    have h2 := ih (applyEff s e) (fun x hx => h x (List.mem_cons_of_mem e hx))
    simp only [applyTrace, List.foldl_cons] at *
    exact ⟨h2.1.trans h1.1, h2.2.1.trans h1.2.1, h2.2.2.trans h1.2.2⟩

/-- **C8.** `loadMenu` is idempotent: once `isLoaded` holds, every further
call returns `true` immediately with an empty effect trace — no rebuilt
HTML, no class changes, no re-bound listeners — so the interpreted state is
unchanged. -/
theorem claim8_loadMenu_idempotent (env : Env) (cfg : Config) (s : State)
    (h : s.isLoaded = true) :
    loadMenu env cfg s = some (true, []) ∧ applyTrace s [] = s := by
  exact ⟨by simp [loadMenu, h], rfl⟩

/-- Witness for C8 at a concrete loaded state. -/
theorem claim8_witness :
    loadMenu envA cfgA stateLoadedA = some (true, []) ∧
      applyTrace stateLoadedA [] = stateLoadedA :=
  claim8_loadMenu_idempotent envA cfgA stateLoadedA rfl

/-- **C3 (failing input).**  With no element matching the toggle's
`aria-controls` (`$menu = null`): `loadMenu` warns and returns `false`, and
`open()` indeed degrades to a warning-only `false` return; but `close()`
reads `classList` of `null` and throws a `TypeError` (modelled as `none`)
instead of being a no-op. -/
theorem claim3_missing_menu_eval :
    loadMenu envA cfgA stateNoMenu = some (false, [Eff.warn warnNoMenu]) ∧
    openOp envA cfgA stateNoMenu = some (false, [Eff.warn warnNoMenu]) ∧
    closeOp envA cfgA stateNoMenu = none := by
  refine ⟨rfl, rfl, rfl⟩

/-- **C2.** Re-entrant guards.  `open()` returns `false` with no effects
whenever the menu element already carries `open` or `opening` (stated for
loaded states — the states the `Opening`/`Open` machine states denote,
since only a successful `loadMenu` can ever lead to those classes);
`close()` returns `false` with no effects whenever the menu element lacks
`open` or carries `closing`. -/
theorem claim2_reentrant_guards (env : Env) (cfg : Config) (s : State) (m : MenuEl)
    (hm : s.menu = some m) :
    (s.isLoaded = true →
      (hasCls m.classes openStatusClass = true ∨
        hasCls m.classes animationOpenStatusClass = true) →
      openOp env cfg s = some (false, []) ∧ applyTrace s [] = s) ∧
    ((hasCls m.classes openStatusClass = false ∨
        hasCls m.classes animationCloseStatusClass = true) →
      closeOp env cfg s = some (false, []) ∧ applyTrace s [] = s) := by
  constructor
  · intro hld hcls
    refine ⟨?_, rfl⟩
    rcases hcls with h | h <;> simp [openOp, loadMenu, hld, applyTrace, hm, h]
  · intro hcls
    refine ⟨?_, rfl⟩
    rcases hcls with h | h <;> simp [closeOp, hm, h]

/-- Witness for C2 at a loaded state whose menu carries `open` and
`closing`. -/
theorem claim2_witness :
    (openOp envA cfgA stateOpenClosing = some (false, []) ∧
      applyTrace stateOpenClosing [] = stateOpenClosing) ∧
    (closeOp envA cfgA stateOpenClosing = some (false, []) ∧
      applyTrace stateOpenClosing [] = stateOpenClosing) :=
  ⟨(claim2_reentrant_guards envA cfgA stateOpenClosing menuOpenClosing rfl).1 rfl
      (Or.inl (by decide)),
   (claim2_reentrant_guards envA cfgA stateOpenClosing menuOpenClosing rfl).2
      (Or.inr (by decide))⟩

/-! ### Lemmas about the substitution scan and comment stripping -/

theorem takeWhile_append_all {p : Char → Bool} {key : List Char} {x : Char} {s : List Char}
    (hw : ∀ c ∈ key, p c = true) (hx : p x = false) :
    (key ++ x :: s).takeWhile p = key := by
  induction key with
  | nil => simp [List.takeWhile_cons, hx]
  | cons c cs ih =>
    have hc : p c = true := hw c (List.mem_cons_self c cs)
    simp [List.takeWhile_cons, hc, ih (fun d hd => hw d (List.mem_cons_of_mem c hd))]

/-- Characters other than `%` pass through the substitution scan. -/
theorem substChars_append_noPct (d : List (String × String)) (pre rest : List Char)
    (h : ∀ c ∈ pre, c ≠ '%') :
    substChars d (pre ++ rest) = pre ++ substChars d rest := by
  induction pre with
  | nil => rfl
  | cons c cs ih =>
    have hc : ¬ (c = '%') := h c (List.mem_cons_self c cs)
    rw [List.cons_append, substChars]
    simp only [hc, if_false]
    rw [ih (fun x hx => h x (List.mem_cons_of_mem c hx))]
    simp

/-- One match step of the `/%(\w+)%/g` scan. -/
theorem substChars_step (d : List (String × String)) (rest key suf' : List Char)
    (htw : rest.takeWhile isWordChar = key)
    (hd : rest.drop key.length = '%' :: suf')
    (hke : key.isEmpty = false) :
    substChars d ('%' :: rest)
      = (markerLookup d (String.mk key)).data ++ substChars d suf' := by
  rw [substChars, if_pos rfl]
  simp only [htw]
  split
  · rename_i after h
    rw [htw] at h
    rw [hd] at h
    injection h with h1 h2
    subst h2
    simp [hke]
  · rename_i h
    rw [htw] at h
    exact (h suf' hd).elim

/-- A literal `%key%` token is replaced by the marker lookup of `key`. -/
theorem substChars_token (d : List (String × String)) (key suf : List Char)
    (hk : key ≠ []) (hw : ∀ c ∈ key, isWordChar c = true) :
    substChars d ('%' :: (key ++ '%' :: suf))
      = (markerLookup d (String.mk key)).data ++ substChars d suf := by
  have hke : key.isEmpty = false := by
    cases key with
    | nil => exact absurd rfl hk
    | cons a l => rfl
  exact substChars_step d (key ++ '%' :: suf) key suf
    (takeWhile_append_all hw (by decide)) (List.drop_left key ('%' :: suf)) hke

/-- The first `-->` after a `-->`-free block `b` is the delimiter
following it. -/
theorem dropAfterSub_boundary (b r : List Char)
    (hb : containsSub ['-', '-', '>'] b = false) :
    dropAfterSub ['-', '-', '>'] (b ++ '-' :: '-' :: '>' :: r) = some r := by
  induction b with
  | nil => simp [dropAfterSub, isPre]
  | cons x bs ih =>
    have hb' : isPre ['-', '-', '>'] (x :: bs) = false ∧
        containsSub ['-', '-', '>'] bs = false := by
      have := hb
      simp [containsSub] at this
      exact this
    have hhead : isPre ['-', '-', '>'] (x :: (bs ++ '-' :: '-' :: '>' :: r)) = false := by
      match bs with
      | [] => simp [isPre]
      | [y] => simp [isPre]
      | y :: z :: bs' =>
        have := hb'.1
        simp [isPre] at this ⊢
        exact this
    rw [List.cons_append, dropAfterSub]
    rw [if_neg (by rw [hhead]; exact Bool.false_ne_true)]
    exact ih hb'.2

/-- A complete `<!-- ... -->` block is textually removed by the
comment-stripping replace. -/
theorem stripComments_comment_block (b r : List Char)
    (hb : containsSub ['-', '-', '>'] b = false) :
    stripComments ('<' :: '!' :: '-' :: '-' :: (b ++ '-' :: '-' :: '>' :: r))
      = stripComments r := by
  rw [stripComments]
  rw [if_pos (by simp [isPre])]
  have hd : dropAfterSub ['-', '-', '>']
      (List.drop 3 ('!' :: '-' :: '-' :: (b ++ '-' :: '-' :: '>' :: r)))
      = some r := by
    simp only [List.drop]
    exact dropAfterSub_boundary b r hb
  split
  · rename_i rest h
    rw [hd] at h
    injection h with h1
    rw [h1]
  · rename_i h
    rw [hd] at h
    exact absurd h (by simp)

/-- **C7.** In `replaceHtml`, a `%key%` token is replaced by the marker
object's own property `key` when present and by the empty string when
absent; and the conditional blocks that substitution turned into complete
`<!-- ... -->` regions are textually removed, every `buildHtml` result
being a comment-stripped string. -/
theorem claim7_substitution_and_conditionals :
    (∀ (d : List (String × String)) (pre key suf : List Char),
      (∀ c ∈ pre, c ≠ '%') → key ≠ [] → (∀ c ∈ key, isWordChar c = true) →
      replaceHtml (String.mk (pre ++ '%' :: (key ++ '%' :: suf))) d
        = String.mk (pre ++ (markerLookup d (String.mk key)).data ++ substChars d suf)) ∧
    (∀ (d : List (String × String)) (k : String) (kv : String × String),
      d.find? (fun x => x.1 = k) = some kv → markerLookup d k = kv.2) ∧
    (∀ (d : List (String × String)) (k : String),
      d.find? (fun x => x.1 = k) = none → markerLookup d k = "") ∧
    (∀ b r : List Char, containsSub ['-', '-', '>'] b = false →
      stripComments ('<' :: '!' :: '-' :: '-' :: (b ++ '-' :: '-' :: '>' :: r))
        = stripComments r) ∧
    (∀ (t : Templates) (items : List MenuItem) (p : Option MenuItem) (level : Nat)
      (h : String), buildHtml t items p level = some h → ∃ u, h = stripCommentsStr u) := by
  refine ⟨?_, ?_, ?_, ?_, ?_⟩
  · intro d pre key suf hpre hk hw
    show String.mk (substChars d (String.mk (pre ++ '%' :: (key ++ '%' :: suf))).data) = _
    have : (String.mk (pre ++ '%' :: (key ++ '%' :: suf))).data
        = pre ++ '%' :: (key ++ '%' :: suf) := rfl
    rw [this, substChars_append_noPct d pre _ hpre, substChars_token d key suf hk hw]
    simp
  · intro d k kv h
    simp [markerLookup, h]
  · intro d k h
    simp [markerLookup, h]
  · exact stripComments_comment_block
  · intro t items p level h hb
    cases p with
    | some q =>
      simp only [buildHtml, Option.some.injEq] at hb
      exact ⟨replaceHtml t.subMenuWrap
          (getItemMarker q none level ++
            [("menuItems", buildInner t items (some q) level)]),
        by rw [← hb, buildWithParent]⟩
    | none =>
      cases items with
      | nil => simp [buildHtml] at hb
      | cons i0 rest =>
        simp only [buildHtml, Option.some.injEq] at hb
        exact ⟨_, hb.symm⟩

/-- Witness for C7 at concrete data. -/
theorem claim7_witness :
    (replaceHtml (String.mk (['a'] ++ '%' :: (['t'] ++ '%' :: ['b']))) [("t", "V")]
      = String.mk (['a'] ++ (markerLookup [("t", "V")] (String.mk ['t'])).data
          ++ substChars [("t", "V")] ['b'])) ∧
    markerLookup [("t", "V")] "t" = ("t", "V").2 ∧
    markerLookup [("t", "V")] "u" = "" ∧
    stripComments ('<' :: '!' :: '-' :: '-' :: (['x'] ++ '-' :: '-' :: '>' :: ['y']))
      = stripComments ['y'] :=
  ⟨claim7_substitution_and_conditionals.1 [("t", "V")] ['a'] ['t'] ['b']
      (by decide) (by decide) (by decide),
   claim7_substitution_and_conditionals.2.1 [("t", "V")] "t" ("t", "V") (by decide),
   claim7_substitution_and_conditionals.2.2.1 [("t", "V")] "u" (by decide),
   claim7_substitution_and_conditionals.2.2.2.1 ['x'] ['y'] (by decide)⟩

/-- **C1.** `buildHtml` renders exactly one menu-item (leaf) template
block per item of a valid `menuItemsJson` tree: the depth-first list of
`replaceHtml(menuItemTemplate, marker)` blocks it embeds into its output
has exactly `treeCount` entries. -/
theorem claim1_one_block_per_item (t : Templates) (items : List MenuItem)
    (parentItem : Option MenuItem) (level : Nat) (hwf : wfItems items = true) :
    (buildBlocks t items parentItem level).length = treeCount items := by
  revert hwf
  induction items, parentItem, level using buildBlocks.induct t with
  | case1 p l => intro _; simp [buildBlocks, treeCount]
  | case2 i rest p l ih1 ih2 =>
    intro hwf
    rw [wfItems] at hwf
    simp only [Bool.and_eq_true] at hwf
    obtain ⟨⟨hce, hwc⟩, hwr⟩ := hwf
    rw [buildBlocks, treeCount]
    by_cases hc : (i.hasSubpages && !i.children.isEmpty) = true
    · simp only [hc, if_true, List.length_cons, List.length_append]
      rw [ih1 hwc, ih2 hwr]
      omega
    · have hempty : i.children = [] := by
        cases hch : i.children with
        | nil => rfl
        | cons a l2 =>
          rw [hch] at hce
          simp at hce
          rw [hch] at hc
          simp [hce] at hc
      simp only [hc, if_false, List.length_cons, List.length_append, List.length_nil]
      rw [hempty, ih2 hwr]
      simp [treeCount]
      omega

theorem claim1_wf_fixture : wfItems [itemParentA] = true := by
  simp [wfItems, itemParentA, itemLeafA, MenuItem.children, MenuItem.hasSubpages]

/-- Witness for C1: a three-node tree yields three rendered blocks. -/
theorem claim1_witness :
    wfItems [itemParentA] = true ∧
    (buildBlocks tmplA [itemParentA] none 0).length = treeCount [itemParentA] :=
  ⟨claim1_wf_fixture,
   claim1_one_block_per_item tmplA [itemParentA] none 0 claim1_wf_fixture⟩

/-- **C9.** `buildHtml` with an empty `items` array and no `parentItem`
hits the `items[0].data.pid` dereference and fails; with a non-empty array
it always succeeds; and the rebuild step of `loadMenu` can never hit the
failure, because it calls `buildHtml` only under the `menuItemsJson.length`
guard. -/
theorem claim9_empty_items_guard (t : Templates) :
    buildHtml t [] none 0 = none ∧
    (∀ items : List MenuItem, items ≠ [] → (buildHtml t items none 0).isSome = true) ∧
    (∀ (env : Env) (cfg : Config) (m : MenuEl),
      (loadMenuHtmlStep env cfg m).isSome = true) := by
  refine ⟨rfl, ?_, ?_⟩
  · intro items hne
    cases items with
    | nil => exact absurd rfl hne
    | cons i rest => simp [buildHtml]
  · intro env cfg m
    cases hmm : cfg.menuItemsJson with
    | nil => simp [loadMenuHtmlStep, hmm]
    | cons a l =>
      simp only [loadMenuHtmlStep, hmm, List.isEmpty_cons, Bool.false_eq_true, if_false]
      split
      · simp [buildHtml]
      · simp

/-- Witness for C9: a one-item tree renders, the empty tree fails, and the
`loadMenu` step succeeds at a concrete environment. -/
theorem claim9_witness :
    buildHtml ⟨"%menuItems%", "%title%", "%menuItems%"⟩ [] none 0 = none ∧
    (buildHtml ⟨"%menuItems%", "%title%", "%menuItems%"⟩
        [MenuItem.mk ⟨1, 0, "a"⟩ "A" "/a" none none false false false false []]
        none 0).isSome = true ∧
    (loadMenuHtmlStep envA cfgA { classes := [], innerHtml := "", top := "" }).isSome
      = true :=
  ⟨(claim9_empty_items_guard _).1,
   (claim9_empty_items_guard _).2.1 _ (List.cons_ne_nil _ _),
   (claim9_empty_items_guard ⟨"%menuItems%", "%title%", "%menuItems%"⟩).2.2 envA cfgA _⟩

/-- **C6.** While the menu is Open, `close()` sets the toggle's
`aria-expanded` to `"false"` synchronously and dispatches `closing`
synchronously, leaves the menu's `open` class in place (adding `closing`),
schedules the completion after `animationDuration` milliseconds, and only
that completion removes `open`/`closing` and dispatches `closed`.  (The
scroll-restore step requires a sane layout: `scrollHelper` off, or a frozen
body, or an overflowing document — otherwise `classList.add('')` throws
inside the timer.) -/
theorem claim6_close_immediate_aria_deferred_classes (env : Env) (cfg : Config) (s : State) (m : MenuEl) (w : WrapEl)
    (hm : s.menu = some m) (hw : s.menuWrap = some w)
    (hopen : hasCls m.classes openStatusClass = true)
    (hclosing : hasCls m.classes animationCloseStatusClass = false)
    (hns : cfg.scrollHelper = false ∨ hasCls s.bodyClasses openStatusBodyClass = true ∨
      env.scrollHeight > env.innerHeight) :
    ∃ t, closeOp env cfg s = some (true, t) ∧
      (applyTrace s t).ariaExpanded = "false" ∧
      menuCls (applyTrace s t) openStatusClass = true ∧
      menuCls (applyTrace s t) animationCloseStatusClass = true ∧
      (applyTrace s t).eventLog = s.eventLog ++ [evClosing] ∧
      (applyTrace s t).pendings = s.pendings ++ [(cfg.animationDuration, Pending.closeDone)] ∧
      ∃ t2, runPending env cfg (applyTrace s t) Pending.closeDone = some t2 ∧
        menuCls (applyTrace (applyTrace s t) t2) openStatusClass = false ∧
        menuCls (applyTrace (applyTrace s t) t2) animationCloseStatusClass = false ∧
        (applyTrace (applyTrace s t) t2).eventLog = s.eventLog ++ [evClosing, evClosed] := by
  have htab : toggleTabEffs (applyTrace s
      [Eff.dispatch evClosing, Eff.addClass .menu animationCloseStatusClass,
       Eff.addClass .toggle animationCloseStatusClass,
       Eff.removeClass .toggle openStatusClass, Eff.setAria "false"])
      = some [Eff.disableTabAll] := by
    simp [toggleTabEffs, applyTrace, applyEff, applyClassF, hasCls_removeCls_self]
  have hwai : toggleWaiAriaEffs env (applyTrace (applyTrace s
      [Eff.dispatch evClosing, Eff.addClass .menu animationCloseStatusClass,
       Eff.addClass .toggle animationCloseStatusClass,
       Eff.removeClass .toggle openStatusClass, Eff.setAria "false"])
      [Eff.disableTabAll])
      = some [Eff.setExpandedNext none] := by
    simp [toggleWaiAriaEffs, applyTrace, applyEff, applyClassF, hasCls_removeCls_self]
  have hanim : animateWrapEffs cfg (applyTrace (applyTrace (applyTrace s
      [Eff.dispatch evClosing, Eff.addClass .menu animationCloseStatusClass,
       Eff.addClass .toggle animationCloseStatusClass,
       Eff.removeClass .toggle openStatusClass, Eff.setAria "false"])
      [Eff.disableTabAll]) [Eff.setExpandedNext none]) "0" "-100%"
      = some [Eff.setWrapTransition "none", Eff.setWrapTop "0",
       Eff.setWrapTransition ("all " ++ toString cfg.animationDuration ++ "ms ease"),
       Eff.setWrapTop "-100%"] := by
    simp [animateWrapEffs, applyTrace, applyEff, applyClassF, hw]
  refine ⟨[Eff.dispatch evClosing, Eff.addClass .menu animationCloseStatusClass,
       Eff.addClass .toggle animationCloseStatusClass,
       Eff.removeClass .toggle openStatusClass, Eff.setAria "false"] ++
      [Eff.disableTabAll] ++ [Eff.setExpandedNext none] ++
      [Eff.setWrapTransition "none", Eff.setWrapTop "0",
       Eff.setWrapTransition ("all " ++ toString cfg.animationDuration ++ "ms ease"),
       Eff.setWrapTop "-100%"] ++
      [Eff.schedule cfg.animationDuration Pending.closeDone], ?_, ?_, ?_, ?_, ?_, ?_, ?_⟩
  · simp only [closeOp, hm, hopen, hclosing, Bool.not_true, Bool.false_or, Bool.or_false,
      htab, hwai, hanim]
    simp
  · simp [applyTrace, applyEff, applyClassF]
  · simp only [menuCls]
    simp [applyTrace, applyEff, applyClassF, hm,
      hasCls_addCls_ne _ _ _ (show animationCloseStatusClass ≠ openStatusClass by decide), hopen]
  · simp only [menuCls]
    simp [applyTrace, applyEff, applyClassF, hm, hasCls_addCls_self]
  · simp [applyTrace, applyEff, applyClassF]
  · simp [applyTrace, applyEff, applyClassF]
  · have e1 : ∀ l, hasCls (removeCls l animationCloseStatusClass) openStatusClass
        = hasCls l openStatusClass := fun l => hasCls_removeCls_ne _ _ _ (by decide)
    have e2 : ∀ l, hasCls (removeCls l openStatusClass) openStatusClass = false :=
      fun l => hasCls_removeCls_self l _
    have e3 : ∀ l, hasCls (removeCls l animationCloseStatusClass) animationCloseStatusClass
        = false := fun l => hasCls_removeCls_self l _
    by_cases hsc : cfg.scrollHelper = false
    · refine ⟨[Eff.removeClass .menu openStatusClass,
          Eff.removeClass .menu animationCloseStatusClass,
          Eff.removeClass .toggle animationCloseStatusClass] ++ [] ++ [Eff.dispatch evClosed],
          ?_, ?_, ?_, ?_⟩
      · simp [runPending, toggleNoScrollEffs, hsc]
      · simp only [menuCls]
        simp [applyTrace, applyEff, applyClassF, hm, e1, e2]
      · simp only [menuCls]
        simp [applyTrace, applyEff, applyClassF, hm, e3]
      · simp [applyTrace, applyEff, applyClassF]
    · have hsc' : cfg.scrollHelper = true := by
        cases hcc : cfg.scrollHelper
        · exact absurd hcc hsc
        · rfl
      by_cases hbc : hasCls s.bodyClasses openStatusBodyClass = true
      · refine ⟨[Eff.removeClass .menu openStatusClass,
            Eff.removeClass .menu animationCloseStatusClass,
            Eff.removeClass .toggle animationCloseStatusClass] ++
            [Eff.setFrozen false, Eff.removeClass .body openStatusBodyClassOverflow,
             Eff.scrollTo (-(s.helperScrollTopAttr.getD 0))] ++ [Eff.dispatch evClosed],
            ?_, ?_, ?_, ?_⟩
        · simp [runPending, toggleNoScrollEffs, hsc', applyTrace, applyEff, applyClassF, hbc]
        · simp only [menuCls]
          simp [applyTrace, applyEff, applyClassF, hm, e1, e2]
        · simp only [menuCls]
          simp [applyTrace, applyEff, applyClassF, hm, e3]
        · simp [applyTrace, applyEff, applyClassF]
      · have hov : env.scrollHeight > env.innerHeight := by
          rcases hns with h | h | h
          · exact absurd h hsc
          · exact absurd h hbc
          · exact h
        refine ⟨[Eff.removeClass .menu openStatusClass,
            Eff.removeClass .menu animationCloseStatusClass,
            Eff.removeClass .toggle animationCloseStatusClass] ++
            [Eff.setHelperAttr (some (-s.scrollTop)), Eff.setFrozen true,
             Eff.addClass .body openStatusBodyClassOverflow, Eff.scrollTo 0] ++
            [Eff.dispatch evClosed],
            ?_, ?_, ?_, ?_⟩
        · simp [runPending, toggleNoScrollEffs, hsc', applyTrace, applyEff, applyClassF, hbc,
            hov, openStatusBodyClassOverflow]
        · simp only [menuCls]
          simp [applyTrace, applyEff, applyClassF, hm, e1, e2]
        · simp only [menuCls]
          simp [applyTrace, applyEff, applyClassF, hm, e3]
        · simp [applyTrace, applyEff, applyClassF]


/-- Witness for C6 at a concrete open state on an overflowing page. -/
theorem claim6_witness :
    ∃ t, closeOp envA cfgA stateOpenA = some (true, t) ∧
      (applyTrace stateOpenA t).ariaExpanded = "false" ∧
      menuCls (applyTrace stateOpenA t) openStatusClass = true ∧
      menuCls (applyTrace stateOpenA t) animationCloseStatusClass = true ∧
      (applyTrace stateOpenA t).eventLog = stateOpenA.eventLog ++ [evClosing] ∧
      (applyTrace stateOpenA t).pendings
        = stateOpenA.pendings ++ [(cfgA.animationDuration, Pending.closeDone)] ∧
      ∃ t2, runPending envA cfgA (applyTrace stateOpenA t) Pending.closeDone = some t2 ∧
        menuCls (applyTrace (applyTrace stateOpenA t) t2) openStatusClass = false ∧
        menuCls (applyTrace (applyTrace stateOpenA t) t2) animationCloseStatusClass = false ∧
        (applyTrace (applyTrace stateOpenA t) t2).eventLog
          = stateOpenA.eventLog ++ [evClosing, evClosed] :=
  claim6_close_immediate_aria_deferred_classes envA cfgA stateOpenA menuOpenA wrapA
    rfl rfl (by decide) (by decide) (Or.inr (Or.inr (by decide)))

theorem applyTrace_append (s : State) (a b : List Eff) :
    applyTrace s (a ++ b) = applyTrace (applyTrace s a) b := by
  simp [applyTrace]

/-- Decomposition of a successful `open()` into its effect stages. -/
theorem openOp_success (env : Env) (cfg : Config) (s : State) (t : List Eff)
    (h : openOp env cfg s = some (true, t)) :
    ∃ (lt tns t3 t4 t5 t6 : List Eff) (cid : Nat),
      loadMenu env cfg s = some (true, lt) ∧
      toggleNoScrollEffs env cfg
        (applyTrace s (lt ++ [Eff.dispatch evFlyoutClose, Eff.dispatch evOpening])) = some tns ∧
      (let t1 := lt ++ [Eff.dispatch evFlyoutClose, Eff.dispatch evOpening]
       let t2 := tns ++ [Eff.disableTabAll] ++ positionMenuEffs env ++
          [Eff.addClass .menu openStatusClass, Eff.addClass .menu animationOpenStatusClass,
           Eff.addClass .toggle openStatusClass, Eff.addClass .toggle animationOpenStatusClass,
           Eff.setAria "true"]
       let sB := applyTrace (applyTrace s t1) t2
       (sB.activeCards[(if cfg.startOnHome then 0 else sB.activeCards.length - 1)]? = some cid) ∧
       setOpenCardEffs sB (some cid) = some t3 ∧
       t4 = resizeCardsEffs env (applyTrace sB t3) ∧
       repositionCardsEffs (applyTrace (applyTrace sB t3) t4) = some t5 ∧
       animateWrapEffs cfg (applyTrace (applyTrace (applyTrace sB t3) t4) t5) "-100%" "0"
         = some t6 ∧
       t = t1 ++ t2 ++ t3 ++ t4 ++ t5 ++ t6
         ++ [Eff.schedule cfg.animationDuration Pending.openDone]) := by
  rw [openOp] at h
  cases hload : loadMenu env cfg s with
  | none => rw [hload] at h; exact absurd h (by simp)
  | some p =>
    obtain ⟨ok, lt⟩ := p
    rw [hload] at h
    cases ok with
    | false => simp at h
    | true =>
      simp only [if_true] at h
      cases hm : (applyTrace s lt).menu with
      | none => simp only [hm] at h; exact absurd h (by simp)
      | some m =>
        simp only [hm] at h
        by_cases hcls : (hasCls m.classes openStatusClass
            || hasCls m.classes animationOpenStatusClass) = true
        · rw [if_pos hcls] at h; simp at h
        · rw [if_neg hcls] at h
          set t1 := lt ++ [Eff.dispatch evFlyoutClose, Eff.dispatch evOpening] with ht1x
          cases htns : toggleNoScrollEffs env cfg (applyTrace s t1) with
          | none => rw [htns] at h; exact absurd h (by simp)
          | some tns =>
            simp only [htns] at h
            set t2 := tns ++ [Eff.disableTabAll] ++ positionMenuEffs env ++
              [Eff.addClass Tgt.menu openStatusClass,
               Eff.addClass Tgt.menu animationOpenStatusClass,
               Eff.addClass Tgt.toggle openStatusClass,
               Eff.addClass Tgt.toggle animationOpenStatusClass,
               Eff.setAria "true"] with ht2x
            set sB := applyTrace (applyTrace s t1) t2 with hsBx
            cases hcid : sB.activeCards[
                (if cfg.startOnHome = true then 0 else sB.activeCards.length - 1)]? with
            | none =>
              simp only [hcid, setOpenCardEffs] at h
              exact absurd h (by simp)
            | some cid =>
              simp only [hcid, setOpenCardEffs] at h
              set t3 := [Eff.setOpen (some cid)] ++
                sB.cards.map (fun c => Eff.removeClass (.card c.id) openCardStatusClass) ++
                [Eff.addClass (.card cid) openCardStatusClass] with ht3x
              set sC := applyTrace sB t3 with hsCx
              set t4 := resizeCardsEffs env sC with ht4x
              set sD := applyTrace sC t4 with hsDx
              cases hrep : repositionCardsEffs sD with
              | none => rw [hrep] at h; exact absurd h (by simp)
              | some t5 =>
                simp only [hrep] at h
                set sE := applyTrace sD t5 with hsEx
                cases hanim : animateWrapEffs cfg sE "-100%" "0" with
                | none => rw [hanim] at h; exact absurd h (by simp)
                | some t6 =>
                  simp only [hanim] at h
                  simp only [Option.some.injEq, Prod.mk.injEq, true_and] at h
                  refine ⟨lt, tns, t3, t4, t5, t6, cid, rfl, htns, ?_, ?_, ?_, ?_, ?_, ?_⟩
                  · exact hcid
                  · rfl
                  · exact ht4x
                  · exact hrep
                  · exact hanim
                  · exact h.symm


theorem resizeCards_navKeep (env : Env) (s : State) :
    ∀ e ∈ resizeCardsEffs env s, navKeep e = true := by
  intro e he
  simp only [resizeCardsEffs, List.mem_map] at he
  obtain ⟨c, _, rfl⟩ := he
  rfl

theorem repositionCards_navKeep (s : State) (t : List Eff)
    (h : repositionCardsEffs s = some t) : ∀ e ∈ t, navKeep e = true := by
  rw [repositionCardsEffs] at h
  cases hoc : s.openCard with
  | none => rw [hoc] at h; exact absurd h (by simp)
  | some cid =>
    rw [hoc] at h
    simp only [Option.some.injEq] at h
    subst h
    intro e he
    rw [List.mem_append, List.mem_append] at he
    rcases he with (hb | hm) | ha
    · rw [List.mem_bind] at hb
      obtain ⟨c, _, hc⟩ := hb
      rw [List.mem_cons, List.mem_singleton] at hc
      rcases hc with rfl | rfl
      · rfl
      · rfl
    · rw [List.mem_singleton] at hm
      subst hm
      rfl
    · rw [List.mem_map] at ha
      obtain ⟨a, _, rfl⟩ := ha
      rfl

theorem animateWrap_navKeep (cfg : Config) (s : State) (f g : String) (t : List Eff)
    (h : animateWrapEffs cfg s f g = some t) : ∀ e ∈ t, navKeep e = true := by
  rw [animateWrapEffs] at h
  cases hw : s.menuWrap with
  | none => rw [hw] at h; exact absurd h (by simp)
  | some w =>
    rw [hw] at h
    simp only [Option.some.injEq] at h
    subst h
    intro e he
    simp only [List.mem_cons, List.not_mem_nil, or_false] at he
    rcases he with rfl | rfl | rfl | rfl
    · rfl
    · rfl
    · rfl
    · rfl

theorem setOpenCard_nav (sB : State) (cid : Nat) (t3 : List Eff)
    (h : setOpenCardEffs sB (some cid) = some t3) :
    (applyTrace sB t3).openCard = some cid ∧
      (applyTrace sB t3).activeCards = sB.activeCards := by
  simp only [setOpenCardEffs, Option.some.injEq] at h
  subst h
  rw [applyTrace_append, applyTrace_append]
  have hrm : ∀ e ∈ sB.cards.map (fun c => Eff.removeClass (Tgt.card c.id) openCardStatusClass),
      classEff e = true := by
    intro e he
    simp only [List.mem_map] at he
    obtain ⟨c, _, rfl⟩ := he
    rfl
  have h1 := applyTrace_classEff_nav _ (applyTrace sB [Eff.setOpen (some cid)]) hrm
  have h2 := applyTrace_classEff_nav [Eff.addClass (Tgt.card cid) openCardStatusClass]
    (applyTrace (applyTrace sB [Eff.setOpen (some cid)])
      (sB.cards.map (fun c => Eff.removeClass (Tgt.card c.id) openCardStatusClass)))
    (by
      intro e he
      rw [List.mem_singleton] at he
      subst he
      rfl)
  exact ⟨h2.1.trans (h1.1.trans rfl), h2.2.trans (h1.2.trans rfl)⟩

/-- **C5.** For every successful `open()`: the card recorded as the
initially open card is the first element of the cached active-card list
when `startOnHome` is set, and its last element (the deepest card on the
active path) otherwise. -/
theorem claim5_initial_card_choice (env : Env) (cfg : Config) (s : State) (t : List Eff)
    (h : openOp env cfg s = some (true, t)) :
    (applyTrace s t).openCard
      = (if cfg.startOnHome then (applyTrace s t).activeCards.head?
         else (applyTrace s t).activeCards.getLast?) := by
  obtain ⟨lt, tns, t3, t4, t5, t6, cid, hload, htns, hrest⟩ := openOp_success env cfg s t h
  simp only at hrest
  obtain ⟨hcid, hsoc, ht4, hrep, hanim, hteq⟩ := hrest
  subst hteq
  set sB := applyTrace (applyTrace s (lt ++ [Eff.dispatch evFlyoutClose, Eff.dispatch evOpening]))
    (tns ++ [Eff.disableTabAll] ++ positionMenuEffs env ++
      [Eff.addClass Tgt.menu openStatusClass, Eff.addClass Tgt.menu animationOpenStatusClass,
       Eff.addClass Tgt.toggle openStatusClass, Eff.addClass Tgt.toggle animationOpenStatusClass,
       Eff.setAria "true"]) with hsB
  rw [applyTrace_append, applyTrace_append, applyTrace_append, applyTrace_append,
    applyTrace_append, applyTrace_append]
  have hA := setOpenCard_nav sB cid t3 hsoc
  have hmem4 : ∀ e ∈ t4, navKeep e = true := by
    rw [ht4]; exact resizeCards_navKeep env _
  have hmem5 : ∀ e ∈ t5, navKeep e = true := repositionCards_navKeep _ t5 hrep
  have hmem6 : ∀ e ∈ t6, navKeep e = true := animateWrap_navKeep cfg _ _ _ t6 hanim
  have hmem7 : ∀ e ∈ [Eff.schedule cfg.animationDuration Pending.openDone], navKeep e = true := by
    intro e he
    rw [List.mem_singleton] at he
    subst he
    rfl
  have h4 := applyTrace_nav t4 (applyTrace sB t3) hmem4
  have h5 := applyTrace_nav t5 (applyTrace (applyTrace sB t3) t4) hmem5
  have h6 := applyTrace_nav t6 (applyTrace (applyTrace (applyTrace sB t3) t4) t5) hmem6
  have h7 := applyTrace_nav [Eff.schedule cfg.animationDuration Pending.openDone]
    (applyTrace (applyTrace (applyTrace (applyTrace sB t3) t4) t5) t6) hmem7
  rw [h7.1, h6.1, h5.1, h4.1, hA.1, h7.2.1, h6.2.1, h5.2.1, h4.2.1, hA.2]
  cases hsh : cfg.startOnHome with
  | true =>
    rw [hsh] at hcid
    simp only [if_true] at hcid ⊢
    rw [List.head?_eq_getElem? _]
    exact hcid.symm
  | false =>
    rw [hsh] at hcid
    simp only [Bool.false_eq_true, if_false] at hcid ⊢
    rw [List.getLast?_eq_getElem? _]
    exact hcid.symm


/-- Witness for C5: opening a one-card menu with `startOnHome: false`
selects the last (deepest) active card. -/
theorem claim5_witness :
    openOp envA cfgA stateReadyA = some (true, openTraceA) ∧
    (applyTrace stateReadyA openTraceA).openCard
      = (if cfgA.startOnHome then (applyTrace stateReadyA openTraceA).activeCards.head?
         else (applyTrace stateReadyA openTraceA).activeCards.getLast?) :=
  ⟨rfl, claim5_initial_card_choice envA cfgA stateReadyA openTraceA rfl⟩

theorem loadMenuHtmlStep_shape (env : Env) (cfg : Config) (m : MenuEl)
    (e1 : List Eff) (html : String) (h : loadMenuHtmlStep env cfg m = some (e1, html)) :
    e1 = [] ∨ ∃ hh, e1 = [Eff.setInner hh] := by
  rw [loadMenuHtmlStep] at h
  by_cases hj : cfg.menuItemsJson.isEmpty
  · simp [hj] at h
    exact Or.inl h.1
  · simp only [hj, Bool.false_eq_true, if_false] at h
    split at h
    · cases hb : buildHtml ⟨env.tmplMenuWrap.getD "", env.tmplMenuItem.getD "",
          env.tmplSubMenuWrap.getD ""⟩ cfg.menuItemsJson none 0 with
      | none => rw [hb] at h; exact absurd h (by simp)
      | some hh =>
        rw [hb] at h
        simp only [Option.some.injEq, Prod.mk.injEq] at h
        exact Or.inr ⟨hh, h.1.symm⟩
    · simp only [Option.some.injEq, Prod.mk.injEq] at h
      exact Or.inl h.1.symm

theorem loadMenu_no_menuAdd (env : Env) (cfg : Config) (s : State) (b : Bool)
    (lt : List Eff) (h : loadMenu env cfg s = some (b, lt)) :
    ∀ e ∈ lt, ∀ c, e ≠ Eff.addClass Tgt.menu c := by
  rw [loadMenu] at h
  by_cases hld : s.isLoaded = true
  · rw [if_pos hld] at h
    simp only [Option.some.injEq, Prod.mk.injEq] at h
    rw [← h.2]
    intro e he
    exact absurd he (by simp)
  · rw [if_neg hld] at h
    cases hm : s.menu with
    | none =>
      simp only [hm, Option.some.injEq, Prod.mk.injEq] at h
      rw [← h.2]
      intro e he c
      rw [List.mem_singleton] at he
      subst he
      simp
    | some m =>
      simp only [hm] at h
      cases hstep : loadMenuHtmlStep env cfg m with
      | none => simp only [hstep] at h; exact absurd h (by simp)
      | some p =>
        obtain ⟨e1, html⟩ := p
        simp only [hstep] at h
        cases hw : env.parseWrap html with
        | none => simp only [hw] at h; exact absurd h (by simp)
        | some w =>
          simp only [hw, Option.some.injEq, Prod.mk.injEq] at h
          rw [← h.2]
          intro e he c
          simp only [List.mem_append, List.mem_cons, List.mem_singleton,
            List.not_mem_nil, or_false] at he
          rcases he with ((he1 | rfl | rfl) | he2) | (rfl | rfl | rfl | rfl)
          · rcases loadMenuHtmlStep_shape env cfg m e1 html hstep with he0 | ⟨hh, he0⟩
            · rw [he0] at he1
              exact absurd he1 (by simp)
            · rw [he0, List.mem_singleton] at he1
              subst he1
              simp
          · simp
          · simp
          · cases hcc : env.parseCards html with
            | nil => rw [hcc] at he2; exact absurd he2 (by simp)
            | cons c0 rest =>
              rw [hcc] at he2
              rw [List.mem_singleton] at he2
              subst he2
              simp
          · simp
          · simp
          · simp
          · simp

/-- **C10.** Every successful `open()` dispatches the
`madj2k-flyoutmenu-close` event immediately followed by the
`madj2k-slidemenu-opening` event, and both strictly precede any addition of
the `open`/`opening` classes to the menu element. -/
theorem claim10_event_order_on_open (env : Env) (cfg : Config) (s : State) (t : List Eff)
    (h : openOp env cfg s = some (true, t)) :
    ∃ i, t[i]? = some (Eff.dispatch evFlyoutClose) ∧
      t[i + 1]? = some (Eff.dispatch evOpening) ∧
      ∀ k, (t[k]? = some (Eff.addClass Tgt.menu openStatusClass) ∨
            t[k]? = some (Eff.addClass Tgt.menu animationOpenStatusClass)) → i + 1 < k := by
  obtain ⟨lt, tns, t3, t4, t5, t6, cid, hload, htns, hrest⟩ := openOp_success env cfg s t h
  simp only at hrest
  obtain ⟨hcid, hsoc, ht4, hrep, hanim, hteq⟩ := hrest
  subst hteq
  have hE12 : ∀ (A R : List Eff) (x y : Eff),
      (A ++ x :: y :: R)[A.length]? = some x ∧
      (A ++ x :: y :: R)[A.length + 1]? = some y := by
    intro A R x y
    constructor
    · rw [List.getElem?_append]
      rw [if_neg (by omega)]
      simp
    · rw [List.getElem?_append]
      rw [if_neg (by omega)]
      simp
  simp only [List.append_assoc, List.cons_append, List.nil_append]
  refine ⟨lt.length, ?_, ?_, ?_⟩
  · exact (hE12 lt _ (Eff.dispatch evFlyoutClose) (Eff.dispatch evOpening)).1
  · exact (hE12 lt _ (Eff.dispatch evFlyoutClose) (Eff.dispatch evOpening)).2
  · intro k hk
    by_contra hle
    push_neg at hle
    rcases hk with hk | hk
    · rw [List.getElem?_append] at hk
      by_cases hkl : k < lt.length
      · rw [if_pos hkl] at hk
        have hmem := List.getElem?_mem hk
        exact absurd rfl (loadMenu_no_menuAdd env cfg s true lt hload _ hmem _)
      · rw [if_neg hkl] at hk
        have h0 : k - lt.length = 0 ∨ k - lt.length = 1 := by omega
        rcases h0 with h0 | h0 <;> rw [h0] at hk <;> simp at hk
    · rw [List.getElem?_append] at hk
      by_cases hkl : k < lt.length
      · rw [if_pos hkl] at hk
        have hmem := List.getElem?_mem hk
        exact absurd rfl (loadMenu_no_menuAdd env cfg s true lt hload _ hmem _)
      · rw [if_neg hkl] at hk
        have h0 : k - lt.length = 0 ∨ k - lt.length = 1 := by omega
        rcases h0 with h0 | h0 <;> rw [h0] at hk <;> simp at hk


/-- Witness for C10 at a concrete successful `open()`. -/
theorem claim10_witness :
    ∃ i, openTraceA[i]? = some (Eff.dispatch evFlyoutClose) ∧
      openTraceA[i + 1]? = some (Eff.dispatch evOpening) ∧
      ∀ k, (openTraceA[k]? = some (Eff.addClass Tgt.menu openStatusClass) ∨
            openTraceA[k]? = some (Eff.addClass Tgt.menu animationOpenStatusClass)) →
        i + 1 < k :=
  claim10_event_order_on_open envA cfgA stateReadyA openTraceA rfl

/-! ### C4: the unique open-card invariant -/

theorem removeCls_idem (l : List String) (a : String) :
    removeCls (removeCls l a) a = removeCls l a := by
  simp [removeCls, List.filter_filter]

theorem removeFold_value (L : List Nat) : ∀ (s : State),
    (applyTrace s (L.map (fun i => Eff.removeClass (Tgt.card i) openCardStatusClass))).cards
      = s.cards.map (fun c =>
          if c.id ∈ L then { c with classes := removeCls c.classes openCardStatusClass }
          else c) := by
  induction L with
  | nil =>
    intro s
    simp [applyTrace]
  | cons i L ih =>
    intro s
    simp only [List.map_cons, applyTrace, List.foldl_cons]
    have := ih (applyEff s (Eff.removeClass (Tgt.card i) openCardStatusClass))
    simp only [applyTrace] at this
    rw [this]
    simp only [applyEff, applyClassF, updCard, List.map_map]
    apply List.map_congr_left
    intro c _
    by_cases hci : c.id = i <;> by_cases hcl : c.id ∈ L <;>
      simp [hci, hcl, removeCls_idem]

theorem setOpenCard_cards (s : State) (cid : Nat) (t3 : List Eff)
    (h : setOpenCardEffs s (some cid) = some t3) :
    (applyTrace s t3).cards
      = s.cards.map (fun c =>
          if c.id = cid then
            { c with classes :=
                addCls (removeCls c.classes openCardStatusClass) openCardStatusClass }
          else { c with classes := removeCls c.classes openCardStatusClass }) := by
  simp only [setOpenCardEffs, Option.some.injEq] at h
  subst h
  rw [applyTrace_append, applyTrace_append]
  have h0 : (applyTrace s [Eff.setOpen (some cid)]).cards = s.cards := rfl
  have h1 : s.cards.map (fun c => Eff.removeClass (Tgt.card c.id) openCardStatusClass)
      = (s.cards.map Card.id).map (fun i => Eff.removeClass (Tgt.card i) openCardStatusClass) := by
    rw [List.map_map]
    rfl
  rw [h1]
  have h2 := removeFold_value (s.cards.map Card.id) (applyTrace s [Eff.setOpen (some cid)])
  have h3 : (applyTrace (applyTrace s [Eff.setOpen (some cid)])
      ((s.cards.map Card.id).map (fun i => Eff.removeClass (Tgt.card i) openCardStatusClass))).cards
      = s.cards.map (fun c =>
          if c.id ∈ s.cards.map Card.id then
            { c with classes := removeCls c.classes openCardStatusClass }
          else c) := by
    rw [h2, h0]
  show (applyTrace _ [Eff.addClass (Tgt.card cid) openCardStatusClass]).cards = _
  have h4 : ∀ (s2 : State), (applyTrace s2 [Eff.addClass (Tgt.card cid) openCardStatusClass]).cards
      = updCard s2.cards cid (fun c => { c with classes := addCls c.classes openCardStatusClass }) := by
    intro s2
    rfl
  rw [h4, h3, updCard, List.map_map]
  apply List.map_congr_left
  intro c hc
  by_cases hcc : c.id = cid
  · have hex : ∃ a ∈ s.cards, a.id = cid := ⟨c, hc, hcc⟩
    simp [hcc, hex]
  · have hex : ∃ a ∈ s.cards, a.id = c.id := ⟨c, hc, rfl⟩
    simp [hcc, hex]

theorem countP_id_eq_one (cs : List Card) (cid : Nat)
    (hnd : (cs.map Card.id).Nodup) (hmem : cid ∈ cs.map Card.id) :
    cs.countP (fun c => decide (c.id = cid)) = 1 := by
  have h1 : cs.countP (fun c => decide (c.id = cid))
      = (cs.map Card.id).countP (fun i => decide (i = cid)) := by
    rw [List.countP_map]
    rfl
  rw [h1]
  have h2 := List.count_eq_one_of_mem hnd hmem
  rw [List.count] at h2
  rw [← h2]
  apply List.countP_congr
  intro a _
  by_cases h : a = cid <;> simp [h]

theorem setOpenCard_uniqueShow (s : State) (cid : Nat) (t3 : List Eff)
    (h : setOpenCardEffs s (some cid) = some t3)
    (hnd : (s.cards.map Card.id).Nodup) (hmem : cid ∈ s.cards.map Card.id) :
    uniqueShow (applyTrace s t3) cid := by
  refine ⟨(setOpenCard_nav s cid t3 h).1, ?_, ?_⟩
  · rw [setOpenCard_cards s cid t3 h]
    intro c' hc'
    rw [List.mem_map] at hc'
    obtain ⟨c, hc, rfl⟩ := hc'
    by_cases hcc : c.id = cid
    · simp [hcc, hasCls_addCls_self]
    · simp [hcc, hasCls_removeCls_self]
  · rw [setOpenCard_cards s cid t3 h]
    rw [List.countP_map]
    simp only [Function.comp_def]
    have hpt : ∀ c ∈ s.cards,
        ((hasCls (if c.id = cid then
            { c with classes :=
                addCls (removeCls c.classes openCardStatusClass) openCardStatusClass }
          else { c with classes := removeCls c.classes openCardStatusClass }).classes
          openCardStatusClass) = true ↔ (decide (c.id = cid)) = true) := by
      intro c _
      by_cases hcc : c.id = cid
      · simp [hcc, hasCls_addCls_self]
      · simp [hcc, hasCls_removeCls_self]
    rw [List.countP_congr hpt]
    exact countP_id_eq_one s.cards cid hnd hmem

theorem uniqueShow_nav (s s2 : State) (cid : Nat)
    (h1 : s2.openCard = s.openCard)
    (h2 : s2.cards.map (fun c => (c.id, c.classes)) = s.cards.map (fun c => (c.id, c.classes)))
    (hu : uniqueShow s cid) : uniqueShow s2 cid := by
  refine ⟨h1.trans hu.1, ?_, ?_⟩
  · intro c' hc'
    have hpair : (c'.id, c'.classes) ∈ s.cards.map (fun c => (c.id, c.classes)) := by
      rw [← h2]
      exact List.mem_map_of_mem _ hc'
    rw [List.mem_map] at hpair
    obtain ⟨c, hc, hcp⟩ := hpair
    have hid : c.id = c'.id := congrArg Prod.fst hcp
    have hclasses : c.classes = c'.classes := congrArg Prod.snd hcp
    rw [← hid, ← hclasses]
    exact hu.2.1 c hc
  · have ha : s2.cards.countP (fun c => hasCls c.classes openCardStatusClass)
        = (s2.cards.map (fun c => (c.id, c.classes))).countP
            (fun p => hasCls p.2 openCardStatusClass) := by
      rw [List.countP_map]
      rfl
    have hb : s.cards.countP (fun c => hasCls c.classes openCardStatusClass)
        = (s.cards.map (fun c => (c.id, c.classes))).countP
            (fun p => hasCls p.2 openCardStatusClass) := by
      rw [List.countP_map]
      rfl
    rw [ha, h2, ← hb]
    exact hu.2.2

theorem idsEq_of_pairEq (l1 l2 : List Card)
    (h : l1.map (fun c => (c.id, c.classes)) = l2.map (fun c => (c.id, c.classes))) :
    l1.map Card.id = l2.map Card.id := by
  have h2 := congrArg (List.map Prod.fst) h
  simp only [List.map_map] at h2
  exact h2

theorem toggleTab_navKeep (s : State) (t : List Eff) (h : toggleTabEffs s = some t) :
    ∀ e ∈ t, navKeep e = true := by
  rw [toggleTabEffs] at h
  by_cases hc : hasCls s.toggleClasses openStatusClass = true
  · rw [if_pos hc] at h
    cases hoc : s.openCard with
    | none => simp only [hoc] at h; exact Option.noConfusion h
    | some cid =>
      simp only [hoc, Option.some.injEq] at h
      subst h
      intro e he
      rcases List.mem_cons.mp he with rfl | he2
      · rfl
      · rw [List.mem_singleton] at he2
        subst he2
        rfl
  · rw [if_neg hc] at h
    simp only [Option.some.injEq] at h
    subst h
    intro e he
    rw [List.mem_singleton] at he
    subst he
    rfl

theorem toggleWaiAria_navKeep (env : Env) (s : State) (t : List Eff)
    (h : toggleWaiAriaEffs env s = some t) : ∀ e ∈ t, navKeep e = true := by
  rw [toggleWaiAriaEffs] at h
  by_cases hc : hasCls s.toggleClasses openStatusClass = true
  · rw [if_pos hc] at h
    cases hoc : s.openCard with
    | none => simp only [hoc] at h; exact Option.noConfusion h
    | some cid =>
      simp only [hoc, Option.some.injEq] at h
      subst h
      intro e he
      rw [List.mem_append] at he
      rcases he with he1 | he2
      · rw [List.mem_singleton] at he1
        subst he1
        rfl
      · by_cases hn : env.nextToggleFor cid = true
        · rw [if_pos hn, List.mem_singleton] at he2
          subst he2
          rfl
        · rw [if_neg hn] at he2
          exact absurd he2 (List.not_mem_nil e)
  · rw [if_neg hc] at h
    simp only [Option.some.injEq] at h
    subst h
    intro e he
    rw [List.mem_singleton] at he
    subst he
    rfl

theorem focusFirst_navKeep (s : State) : ∀ e ∈ focusFirstEffs s, navKeep e = true := by
  intro e he
  rw [focusFirstEffs] at he
  cases hoc : s.openCard with
  | none => simp only [hoc] at he; exact absurd he (List.not_mem_nil e)
  | some cid =>
    simp only [hoc] at he
    cases hf : s.cards.find? (fun c => c.id = cid) with
    | none => simp only [hf] at he; exact absurd he (List.not_mem_nil e)
    | some c =>
      simp only [hf] at he
      by_cases hfoc : (c.hasFocusable && !c.tabDisabled) = true
      · rw [if_pos hfoc, List.mem_singleton] at he
        subst he
        rfl
      · rw [if_neg hfoc] at he
        exact absurd he (List.not_mem_nil e)

theorem uniqueShow_removeOther (s : State) (cid j : Nat) (a : String)
    (ha : a ≠ openCardStatusClass) (hu : uniqueShow s cid) :
    uniqueShow (applyEff s (Eff.removeClass (Tgt.card j) a)) cid := by
  have hcards : (applyEff s (Eff.removeClass (Tgt.card j) a)).cards
      = updCard s.cards j (fun c => { c with classes := removeCls c.classes a }) := rfl
  have hopen : (applyEff s (Eff.removeClass (Tgt.card j) a)).openCard = s.openCard := rfl
  refine ⟨hopen.trans hu.1, ?_, ?_⟩
  · intro c' hc'
    rw [hcards, updCard, List.mem_map] at hc'
    obtain ⟨c, hc, rfl⟩ := hc'
    by_cases hcj : c.id = j
    · rw [if_pos hcj]
      show hasCls (removeCls c.classes a) openCardStatusClass = true ↔ c.id = cid
      rw [hasCls_removeCls_ne _ _ _ ha]
      exact hu.2.1 c hc
    · rw [if_neg hcj]
      exact hu.2.1 c hc
  · rw [hcards, updCard, List.countP_map]
    simp only [Function.comp_def]
    have hpt : ∀ c ∈ s.cards,
        ((hasCls (if c.id = j then { c with classes := removeCls c.classes a } else c).classes
          openCardStatusClass) = true ↔ (hasCls c.classes openCardStatusClass) = true) := by
      intro c _
      by_cases hcj : c.id = j
      · rw [if_pos hcj]
        show hasCls (removeCls c.classes a) openCardStatusClass = true ↔ _
        rw [hasCls_removeCls_ne _ _ _ ha]
      · rw [if_neg hcj]
    rw [List.countP_congr hpt]
    exact hu.2.2

theorem changeOpenCard_uniqueShow (env : Env) (s : State) (cid : Nat) (t : List Eff)
    (h : changeOpenCardEffs env s cid = some t)
    (hnd : (s.cards.map Card.id).Nodup) (hmem : cid ∈ s.cards.map Card.id) :
    uniqueShow (applyTrace s t) cid := by
  rw [changeOpenCardEffs] at h
  cases h1 : setOpenCardEffs s (some cid) with
  | none => simp only [h1] at h; exact Option.noConfusion h
  | some t1 =>
    simp only [h1] at h
    cases h2 : toggleTabEffs (applyTrace s t1) with
    | none => simp only [h2] at h; exact Option.noConfusion h
    | some t2 =>
      simp only [h2] at h
      cases h3 : toggleWaiAriaEffs env (applyTrace (applyTrace s t1) t2) with
      | none => simp only [h3] at h; exact Option.noConfusion h
      | some t3 =>
        simp only [h3, Option.some.injEq] at h
        subst h
        rw [applyTrace_append, applyTrace_append, applyTrace_append]
        have hu1 := setOpenCard_uniqueShow s cid t1 h1 hnd hmem
        have hn2 := applyTrace_nav t2 (applyTrace s t1) (toggleTab_navKeep _ t2 h2)
        have hu2 := uniqueShow_nav _ _ cid hn2.1 hn2.2.2 hu1
        have hn3 := applyTrace_nav t3 (applyTrace (applyTrace s t1) t2)
          (toggleWaiAria_navKeep env _ t3 h3)
        have hu3 := uniqueShow_nav _ _ cid hn3.1 hn3.2.2 hu2
        have hn4 := applyTrace_nav
          (focusFirstEffs (applyTrace (applyTrace (applyTrace s t1) t2) t3))
          (applyTrace (applyTrace (applyTrace s t1) t2) t3)
          (focusFirst_navKeep _)
        exact uniqueShow_nav _ _ cid hn4.1 hn4.2.2 hu3

theorem nextDone_uniqueShow (env : Env) (cfg : Config) (s : State) (cid : Nat) (t : List Eff)
    (h : runPending env cfg s (Pending.nextDone cid) = some t)
    (hnd : (s.cards.map Card.id).Nodup) (hmem : cid ∈ s.cards.map Card.id) :
    uniqueShow (applyTrace s t) cid := by
  simp only [runPending] at h
  cases h1 : changeOpenCardEffs env s cid with
  | none => simp only [h1] at h; exact Option.noConfusion h
  | some t1 =>
    simp only [h1, Option.some.injEq] at h
    subst h
    rw [applyTrace_append]
    have hu1 := changeOpenCard_uniqueShow env s cid t1 h1 hnd hmem
    have hstep : applyTrace (applyTrace s t1)
        [Eff.removeClass (Tgt.card cid) animationOpenStatusClass, Eff.dispatch evNextOpened]
        = applyEff (applyEff (applyTrace s t1)
            (Eff.removeClass (Tgt.card cid) animationOpenStatusClass))
            (Eff.dispatch evNextOpened) := rfl
    rw [hstep]
    have hu2 := uniqueShow_removeOther (applyTrace s t1) cid cid
      animationOpenStatusClass (by decide) hu1
    exact uniqueShow_nav _ _ cid rfl rfl hu2

theorem prevDone_uniqueShow (env : Env) (cfg : Config) (s : State) (ctrl pc : Nat)
    (t : List Eff)
    (h : runPending env cfg s (Pending.prevDone ctrl pc) = some t)
    (hnd : (s.cards.map Card.id).Nodup) (hmem : pc ∈ s.cards.map Card.id) :
    uniqueShow (applyTrace s t) pc := by
  simp only [runPending] at h
  cases h1 : changeOpenCardEffs env s pc with
  | none => simp only [h1] at h; exact Option.noConfusion h
  | some t1 =>
    simp only [h1, Option.some.injEq] at h
    subst h
    rw [applyTrace_append]
    have hu1 := changeOpenCard_uniqueShow env s pc t1 h1 hnd hmem
    have hstep : applyTrace (applyTrace s t1)
        [Eff.removeClass (Tgt.card ctrl) animationCloseStatusClass, Eff.dispatch evPrevOpened]
        = applyEff (applyEff (applyTrace s t1)
            (Eff.removeClass (Tgt.card ctrl) animationCloseStatusClass))
            (Eff.dispatch evPrevOpened) := rfl
    rw [hstep]
    have hu2 := uniqueShow_removeOther (applyTrace s t1) pc ctrl
      animationCloseStatusClass (by decide) hu1
    exact uniqueShow_nav _ _ pc rfl rfl hu2

theorem openOp_uniqueShow (env : Env) (cfg : Config) (s : State) (t : List Eff)
    (h : openOp env cfg s = some (true, t))
    (hnd : ((applyTrace s t).cards.map Card.id).Nodup)
    (hsub : ∀ a ∈ (applyTrace s t).activeCards, a ∈ (applyTrace s t).cards.map Card.id) :
    ∃ cid, uniqueShow (applyTrace s t) cid := by
  obtain ⟨lt, tns, t3, t4, t5, t6, cid, hload, htns, hrest⟩ := openOp_success env cfg s t h
  simp only at hrest
  obtain ⟨hcid, hsoc, ht4, hrep, hanim, hteq⟩ := hrest
  subst hteq
  set sB := applyTrace (applyTrace s (lt ++ [Eff.dispatch evFlyoutClose, Eff.dispatch evOpening]))
    (tns ++ [Eff.disableTabAll] ++ positionMenuEffs env ++
      [Eff.addClass Tgt.menu openStatusClass, Eff.addClass Tgt.menu animationOpenStatusClass,
       Eff.addClass Tgt.toggle openStatusClass, Eff.addClass Tgt.toggle animationOpenStatusClass,
       Eff.setAria "true"]) with hsB
  rw [applyTrace_append, applyTrace_append, applyTrace_append, applyTrace_append,
    applyTrace_append, applyTrace_append] at hnd hsub ⊢
  have hA := setOpenCard_nav sB cid t3 hsoc
  have hmem4 : ∀ e ∈ t4, navKeep e = true := by
    rw [ht4]
    exact resizeCards_navKeep env _
  have hmem5 : ∀ e ∈ t5, navKeep e = true := repositionCards_navKeep _ t5 hrep
  have hmem6 : ∀ e ∈ t6, navKeep e = true := animateWrap_navKeep cfg _ _ _ t6 hanim
  have hmem7 : ∀ e ∈ [Eff.schedule cfg.animationDuration Pending.openDone], navKeep e = true := by
    intro e he
    rw [List.mem_singleton] at he
    subst he
    rfl
  have h4 := applyTrace_nav t4 (applyTrace sB t3) hmem4
  have h5 := applyTrace_nav t5 (applyTrace (applyTrace sB t3) t4) hmem5
  have h6 := applyTrace_nav t6 (applyTrace (applyTrace (applyTrace sB t3) t4) t5) hmem6
  have h7 := applyTrace_nav [Eff.schedule cfg.animationDuration Pending.openDone]
    (applyTrace (applyTrace (applyTrace (applyTrace sB t3) t4) t5) t6) hmem7
  have hpair : (applyTrace (applyTrace (applyTrace (applyTrace (applyTrace sB t3) t4) t5) t6)
        [Eff.schedule cfg.animationDuration Pending.openDone]).cards.map
          (fun c => (c.id, c.classes))
      = (applyTrace sB t3).cards.map (fun c => (c.id, c.classes)) :=
    (h7.2.2.trans h6.2.2).trans (h5.2.2.trans h4.2.2)
  have hact : (applyTrace (applyTrace (applyTrace (applyTrace (applyTrace sB t3) t4) t5) t6)
        [Eff.schedule cfg.animationDuration Pending.openDone]).activeCards
      = sB.activeCards :=
    (h7.2.1.trans h6.2.1).trans ((h5.2.1.trans h4.2.1).trans hA.2)
  have hidsGC := idsEq_of_pairEq _ _ hpair
  have hsCcards := setOpenCard_cards sB cid t3 hsoc
  have hidsCB : (applyTrace sB t3).cards.map Card.id = sB.cards.map Card.id := by
    rw [hsCcards, List.map_map]
    refine List.map_congr_left ?_
    intro c _
    by_cases hcc : c.id = cid <;> simp [Function.comp_def, hcc]
  have hndB : (sB.cards.map Card.id).Nodup := by
    rw [← hidsCB, ← hidsGC]
    exact hnd
  have hcidmem : cid ∈ sB.activeCards := List.getElem?_mem hcid
  have hmemB : cid ∈ sB.cards.map Card.id := by
    rw [← hidsCB, ← hidsGC]
    apply hsub
    rw [hact]
    exact hcidmem
  have hu1 := setOpenCard_uniqueShow sB cid t3 hsoc hndB hmemB
  have hu4 := uniqueShow_nav _ _ cid h4.1 h4.2.2 hu1
  have hu5 := uniqueShow_nav _ _ cid h5.1 h5.2.2 hu4
  have hu6 := uniqueShow_nav _ _ cid h6.1 h6.2.2 hu5
  have hu7 := uniqueShow_nav _ _ cid h7.1 h7.2.2 hu6
  exact ⟨cid, hu7⟩

/-- **C4.**  Whenever the cached cards carry pairwise distinct element ids
and the targeted card is among them, every card-state-changing operation —
`setOpenCard`, `changeOpenCard`, every successful `open()` (whose active
cards are cached cards), and the deferred `nextCardEvent` /
`previousCardEvent` callbacks — leaves exactly one card carrying the
open-card status class `show`, namely the card recorded as `$openCard`;
every other card does not carry it. -/
theorem claim4_unique_open_card :
    (∀ (s : State) (cid : Nat) (t : List Eff),
        setOpenCardEffs s (some cid) = some t →
        (s.cards.map Card.id).Nodup → cid ∈ s.cards.map Card.id →
        uniqueShow (applyTrace s t) cid) ∧
    (∀ (env : Env) (s : State) (cid : Nat) (t : List Eff),
        changeOpenCardEffs env s cid = some t →
        (s.cards.map Card.id).Nodup → cid ∈ s.cards.map Card.id →
        uniqueShow (applyTrace s t) cid) ∧
    (∀ (env : Env) (cfg : Config) (s : State) (t : List Eff),
        openOp env cfg s = some (true, t) →
        ((applyTrace s t).cards.map Card.id).Nodup →
        (∀ a ∈ (applyTrace s t).activeCards, a ∈ (applyTrace s t).cards.map Card.id) →
        ∃ cid, uniqueShow (applyTrace s t) cid) ∧
    (∀ (env : Env) (cfg : Config) (s : State) (cid : Nat) (t : List Eff),
        runPending env cfg s (Pending.nextDone cid) = some t →
        (s.cards.map Card.id).Nodup → cid ∈ s.cards.map Card.id →
        uniqueShow (applyTrace s t) cid) ∧
    (∀ (env : Env) (cfg : Config) (s : State) (ctrl pc : Nat) (t : List Eff),
        runPending env cfg s (Pending.prevDone ctrl pc) = some t →
        (s.cards.map Card.id).Nodup → pc ∈ s.cards.map Card.id →
        uniqueShow (applyTrace s t) pc) :=
  ⟨fun s cid t h hnd hmem => setOpenCard_uniqueShow s cid t h hnd hmem,
   fun env s cid t h hnd hmem => changeOpenCard_uniqueShow env s cid t h hnd hmem,
   fun env cfg s t h hnd hsub => openOp_uniqueShow env cfg s t h hnd hsub,
   fun env cfg s cid t h hnd hmem => nextDone_uniqueShow env cfg s cid t h hnd hmem,
   fun env cfg s ctrl pc t h hnd hmem => prevDone_uniqueShow env cfg s ctrl pc t h hnd hmem⟩

/-- Witness for C4: `setOpenCard` on the ready fixture's only card. -/
theorem claim4_witness :
    setOpenCardEffs stateReadyA (some 1) = some openCardTraceA ∧
    uniqueShow (applyTrace stateReadyA openCardTraceA) 1 :=
  ⟨rfl, claim4_unique_open_card.1 stateReadyA 1 openCardTraceA rfl (by decide) (by decide)⟩

end SlideMenu
